import Mathlib

/-!
Verification of the stix2nx bundle-to-graph conversion core.

This file shallowly embeds the stix2nx Python package (src/stix2nx/utils.py,
src/stix2nx/converter.py, src/stix2nx/parsers.py) together with the NetworkX
graph primitives it calls (DiGraph and MultiDiGraph add_node and add_edge,
whose documented behaviour on re-insertion is attribute-dict update), and
proves properties of the conversion against this embedding.

Python values are modelled by a JSON-like inductive type; Python dicts are
association lists preserving insertion order. Keys are unique in every dict
produced by json parsing; theorems record this as Nodup hypotheses where a
property depends on it.
-/

namespace Stix2nx

/-- A Python/JSON value as it occurs in parsed STIX bundles: string, integer
number, boolean, None, list, or string-keyed dict (insertion-ordered).
Floats do not occur in the fields the converter inspects and are not
modelled. -/
inductive Value where
  | str (s : String)
  | num (n : Int)
  | bool (b : Bool)
  | null
  | list (xs : List Value)
  | dict (d : List (String × Value))

mutual

/-- Decidable equality on values (structural, so it evaluates in the kernel). -/
def Value.decEq : (a b : Value) → Decidable (a = b)
  | .str a, .str b =>
    if h : a = b then .isTrue (by rw [h]) else .isFalse (fun hc => by cases hc; exact h rfl)
  | .num a, .num b =>
    if h : a = b then .isTrue (by rw [h]) else .isFalse (fun hc => by cases hc; exact h rfl)
  | .bool a, .bool b =>
    if h : a = b then .isTrue (by rw [h]) else .isFalse (fun hc => by cases hc; exact h rfl)
  | .null, .null => .isTrue rfl
  | .list xs, .list ys =>
    match Value.decEqList xs ys with
    | .isTrue h => .isTrue (by rw [h])
    | .isFalse h => .isFalse (fun hc => by cases hc; exact h rfl)
  | .dict d, .dict e =>
    match Value.decEqFields d e with
    | .isTrue h => .isTrue (by rw [h])
    | .isFalse h => .isFalse (fun hc => by cases hc; exact h rfl)
  | .str _, .num _ => .isFalse (fun h => Value.noConfusion h)
  | .str _, .bool _ => .isFalse (fun h => Value.noConfusion h)
  | .str _, .null => .isFalse (fun h => Value.noConfusion h)
  | .str _, .list _ => .isFalse (fun h => Value.noConfusion h)
  | .str _, .dict _ => .isFalse (fun h => Value.noConfusion h)
  | .num _, .str _ => .isFalse (fun h => Value.noConfusion h)
  | .num _, .bool _ => .isFalse (fun h => Value.noConfusion h)
  | .num _, .null => .isFalse (fun h => Value.noConfusion h)
  | .num _, .list _ => .isFalse (fun h => Value.noConfusion h)
  | .num _, .dict _ => .isFalse (fun h => Value.noConfusion h)
  | .bool _, .str _ => .isFalse (fun h => Value.noConfusion h)
  | .bool _, .num _ => .isFalse (fun h => Value.noConfusion h)
  | .bool _, .null => .isFalse (fun h => Value.noConfusion h)
  | .bool _, .list _ => .isFalse (fun h => Value.noConfusion h)
  | .bool _, .dict _ => .isFalse (fun h => Value.noConfusion h)
  | .null, .str _ => .isFalse (fun h => Value.noConfusion h)
  | .null, .num _ => .isFalse (fun h => Value.noConfusion h)
  | .null, .bool _ => .isFalse (fun h => Value.noConfusion h)
  | .null, .list _ => .isFalse (fun h => Value.noConfusion h)
  | .null, .dict _ => .isFalse (fun h => Value.noConfusion h)
  | .list _, .str _ => .isFalse (fun h => Value.noConfusion h)
  | .list _, .num _ => .isFalse (fun h => Value.noConfusion h)
  | .list _, .bool _ => .isFalse (fun h => Value.noConfusion h)
  | .list _, .null => .isFalse (fun h => Value.noConfusion h)
  | .list _, .dict _ => .isFalse (fun h => Value.noConfusion h)
  | .dict _, .str _ => .isFalse (fun h => Value.noConfusion h)
  | .dict _, .num _ => .isFalse (fun h => Value.noConfusion h)
  | .dict _, .bool _ => .isFalse (fun h => Value.noConfusion h)
  | .dict _, .null => .isFalse (fun h => Value.noConfusion h)
  | .dict _, .list _ => .isFalse (fun h => Value.noConfusion h)
termination_by structural a => a

/-- Decidable equality on value lists. -/
def Value.decEqList : (xs ys : List Value) → Decidable (xs = ys)
  | [], [] => .isTrue rfl
  | [], _ :: _ => .isFalse (fun h => List.noConfusion h)
  | _ :: _, [] => .isFalse (fun h => List.noConfusion h)
  | x :: xs, y :: ys =>
    match Value.decEq x y with
    | .isTrue h1 =>
      match Value.decEqList xs ys with
      | .isTrue h2 => .isTrue (by rw [h1, h2])
      | .isFalse h2 => .isFalse (fun hc => by cases hc; exact h2 rfl)
    | .isFalse h1 => .isFalse (fun hc => by cases hc; exact h1 rfl)
termination_by structural xs => xs

/-- Decidable equality on field lists (dict entries). -/
def Value.decEqFields : (d e : List (String × Value)) → Decidable (d = e)
  | [], [] => .isTrue rfl
  | [], _ :: _ => .isFalse (fun h => List.noConfusion h)
  | _ :: _, [] => .isFalse (fun h => List.noConfusion h)
  | (k, v) :: d, (k', v') :: e =>
    if hk : k = k' then
      match Value.decEq v v' with
      | .isTrue h1 =>
        match Value.decEqFields d e with
        | .isTrue h2 => .isTrue (by rw [hk, h1, h2])
        | .isFalse h2 => .isFalse (fun hc => by cases hc; exact h2 rfl)
      | .isFalse h1 => .isFalse (fun hc => by cases hc; exact h1 rfl)
    else .isFalse (fun hc => by cases hc; exact hk rfl)
termination_by structural d => d

end

instance : DecidableEq Value := Value.decEq

/-- A Python dict of STIX object fields: an insertion-ordered association list. -/
abbrev Obj := List (String × Value)

/-- Python truthiness of a value, as used by conditions such as
`if not obj_type` in converter.py. -/
def Value.truthy : Value → Bool
  | .str s => !s.isEmpty
  | .num n => n != 0
  | .bool b => b
  | .null => false
  | .list xs => !xs.isEmpty
  | .dict d => !d.isEmpty

/-- First-occurrence lookup in an association list (Python dict access for
dicts with unique keys). -/
def look {κ β : Type} [DecidableEq κ] : List (κ × β) → κ → Option β
  | [], _ => none
  | (k', v) :: rest, k => if k = k' then some v else look rest k

/-- Python dict assignment d[k] = v: replace the value at an existing key in
place (keeping its position), or append the new key at the end. -/
def setKey {κ β : Type} [DecidableEq κ] (d : List (κ × β)) (k : κ) (v : β) :
    List (κ × β) :=
  if (look d k).isSome then
    d.map (fun kv => if kv.1 = k then (k, v) else kv)
  else
    d ++ [(k, v)]

/-- Python dict d.update(u): set each key of u in order. This is the merge
primitive NetworkX applies on re-insertion of a node or edge. -/
def dictUpdate {κ β : Type} [DecidableEq κ] (d u : List (κ × β)) : List (κ × β) :=
  u.foldl (fun acc kv => setKey acc kv.1 kv.2) d

/-- Python d.pop(k, None): remove the key if present. -/
def popKey {κ β : Type} [DecidableEq κ] (d : List (κ × β)) (k : κ) : List (κ × β) :=
  d.filter (fun kv => kv.1 ≠ k)

/-- Value at the last occurrence of a key, which is what a sequence of Python
dict assignments leaves behind when the source list has duplicate keys. -/
def lookLast {κ β : Type} [DecidableEq κ] : List (κ × β) → κ → Option β
  | [], _ => none
  | (k', v) :: rest, k =>
    match lookLast rest k with
    | some w => some w
    | none => if k = k' then some v else none

/-- Boolean extensional equality of dicts as key-to-value maps (Python dict
equality ignores insertion order). -/
def mapEqb {κ β : Type} [DecidableEq κ] [DecidableEq β] (d e : List (κ × β)) : Bool :=
  d.all (fun kv => look e kv.1 = some kv.2) && e.all (fun kv => look d kv.1 = some kv.2)

/-! Embedding of src/stix2nx/utils.py. -/

/-- STIX Domain Object types (SDO_TYPES in utils.py). -/
def SDO_TYPES : List String :=
  ["attack-pattern", "campaign", "course-of-action", "grouping", "identity",
   "incident", "indicator", "infrastructure", "intrusion-set", "location",
   "malware", "malware-analysis", "note", "observed-data", "opinion",
   "report", "threat-actor", "tool", "vulnerability"]

/-- STIX Cyber-observable Object types (SCO_TYPES in utils.py). -/
def SCO_TYPES : List String :=
  ["artifact", "autonomous-system", "directory", "domain-name", "email-addr",
   "email-message", "file", "ipv4-addr", "ipv6-addr", "mac-addr", "mutex",
   "network-traffic", "process", "software", "url", "user-account",
   "windows-registry-key", "x509-certificate"]

/-- Types to skip entirely (SKIP_TYPES in utils.py). -/
def SKIP_TYPES : List String := ["marking-definition", "language-content"]

/-- ATT&CK custom type markers treated as SDOs (CUSTOM_SDO_PREFIXES in utils.py). -/
def CUSTOM_SDO_PREFIXES : List String := ["x-mitre-"]

/-- Python str.startswith: the candidate marker's character list is an
initial segment of the string's character list. -/
def pyStartsWith (s p : String) : Bool := p.data.isPrefixOf s.data

/-- utils.is_sdo. The Python code evaluates obj.get("type", "") in SDO_TYPES
and then obj_type.startswith over CUSTOM_SDO_PREFIXES. For a truthy non-string
type CPython would raise AttributeError at startswith; that crash is not
modelled (the branch returns false) and every theorem about classification
restricts the type field to strings. -/
def is_sdo (obj : Obj) : Bool :=
  match (look obj "type").getD (.str "") with
  | .str s => SDO_TYPES.contains s || CUSTOM_SDO_PREFIXES.any (fun p => pyStartsWith s p)
  | _ => false

/-- utils.is_sco: obj.get("type", "") in SCO_TYPES. -/
def is_sco (obj : Obj) : Bool :=
  match (look obj "type").getD (.str "") with
  | .str s => SCO_TYPES.contains s
  | _ => false

/-- utils.is_relationship: obj.get("type") == "relationship". -/
def is_relationship (obj : Obj) : Bool :=
  decide (look obj "type" = some (Value.str "relationship"))

/-- utils.is_sighting: obj.get("type") == "sighting". -/
def is_sighting (obj : Obj) : Bool :=
  decide (look obj "type" = some (Value.str "sighting"))

/-- utils.is_skippable: obj.get("type", "") in SKIP_TYPES. -/
def is_skippable (obj : Obj) : Bool :=
  match (look obj "type").getD (.str "") with
  | .str s => SKIP_TYPES.contains s
  | _ => false

/-- Python str() of a value as used by the f-string in
extract_stix20_embedded_scos. Only the string case is exercised by real STIX
identifiers; list and dict repr strings are not modelled in detail and no
theorem depends on them. -/
def pyStr : Value → String
  | .str s => s
  | .num n => toString n
  | .bool true => "True"
  | .bool false => "False"
  | .null => "None"
  | .list _ => "<list>"
  | .dict _ => "<dict>"

/-- The loop body of utils.extract_stix20_embedded_scos over the entries of
the embedded objects dict, in insertion order. -/
def extractLoop (parent_id : Value) : List (String × Value) → List Obj
  | [] => []
  | (key, v) :: rest =>
    match v with
    | .dict obj =>
      let obj_type := (look obj "type").getD (.str "")
      if obj_type.truthy then
        let sco := setKey obj "id" (.str (pyStr parent_id ++ "--embedded-" ++ key))
        if (look sco "type").isSome then sco :: extractLoop parent_id rest
        else extractLoop parent_id rest
      else extractLoop parent_id rest
    | _ => extractLoop parent_id rest

/-- utils.extract_stix20_embedded_scos: extract embedded SCOs from a STIX 2.0
observed-data object, synthesizing ids of the form
parent-id--embedded-key. -/
def extract_stix20_embedded_scos (observed_data : Obj) : List Obj :=
  match (look observed_data "objects").getD (.dict []) with
  | .dict embedded =>
    let parent_id := (look observed_data "id").getD (.str "observed-data--unknown")
    extractLoop parent_id embedded
  | _ => []

/-! Embedding of the NetworkX graph primitives the converter calls.
DiGraph stores at most one edge per ordered endpoint pair; MultiDiGraph keys
parallel edges by consecutive integers. Re-adding an existing node or
DiGraph edge updates its attribute dict in place (dict.update), per the
NetworkX documentation of add_node and add_edge. -/

/-- An edge's endpoint pair (u, v). -/
abbrev EdgeKey := Value × Value

/-- A NetworkX DiGraph or MultiDiGraph: node list (key and attribute dict,
in insertion order) and edge list (endpoint pair, multi-edge key, attribute
dict). For a DiGraph the multi-edge key is always 0 and endpoint pairs are
unique. -/
structure Graph where
  isMulti : Bool
  nodes : List (Value × Obj)
  edges : List (EdgeKey × Nat × Obj)
deriving DecidableEq

/-- A fresh empty graph of the given kind. -/
def Graph.empty (isMulti : Bool) : Graph := ⟨isMulti, [], []⟩

/-- NetworkX add_node: create the node with a fresh attribute dict updated
from attrs, or update the existing node's attribute dict. -/
def Graph.addNode (g : Graph) (n : Value) (attrs : Obj) : Graph :=
  match look g.nodes n with
  | some old => { g with nodes := setKey g.nodes n (dictUpdate old attrs) }
  | none => { g with nodes := g.nodes ++ [(n, dictUpdate [] attrs)] }

/-- NetworkX add_edge first auto-creates missing endpoint nodes with empty
attribute dicts. -/
def Graph.ensureNode (g : Graph) (n : Value) : Graph :=
  if (look g.nodes n).isSome then g else { g with nodes := g.nodes ++ [(n, [])] }

/-- Number of edges with the given endpoint pair; the next fresh
MultiDiGraph auto-key (NetworkX assigns consecutive integers starting at 0
when no explicit key is passed). -/
def countPair (es : List (EdgeKey × Nat × Obj)) (p : EdgeKey) : Nat :=
  (es.filter (fun e => decide (e.1 = p))).length

/-- The edge-insertion step of NetworkX add_edge, after endpoint nodes have
been ensured. MultiDiGraph: append a new edge under a fresh key. DiGraph:
update the existing edge's attribute dict, or append a new edge. -/
def addEdgeAux (g1 : Graph) (u v : Value) (attrs : Obj) : Graph :=
  if g1.isMulti then
    { g1 with edges := g1.edges ++ [((u, v), countPair g1.edges (u, v), dictUpdate [] attrs)] }
  else
    match look g1.edges (u, v) with
    | some ko => { g1 with edges := setKey g1.edges (u, v) (ko.1, dictUpdate ko.2 attrs) }
    | none => { g1 with edges := g1.edges ++ [((u, v), 0, dictUpdate [] attrs)] }

/-- NetworkX add_edge: auto-create missing endpoint nodes, then insert or
update the edge. -/
def Graph.addEdge (g : Graph) (u v : Value) (attrs : Obj) : Graph :=
  addEdgeAux ((g.ensureNode u).ensureNode v) u v attrs

/-! Embedding of src/stix2nx/converter.py. -/

/-- The shallow copy applied to each field value by converter._obj_to_attrs
(list(value) for lists, dict(value) for dicts, identity otherwise). -/
def copyTop : Value → Value
  | .list xs => .list xs
  | .dict d => .dict d
  | v => v

/-- converter._obj_to_attrs: convert a STIX object dict to a node/edge
attribute dict, preserving all properties. -/
def obj_to_attrs (obj : Obj) : Obj :=
  obj.map (fun kv => (kv.1, copyTop kv.2))

/-- The log events convert_bundle and its helpers can emit, in order. -/
inductive LogEvent where
  | warnObjectsNotList
  | warnNonDictObject
  | warnNoType
  | warnNoId
  | warnRelationshipMissingRef
  | debugUnknownType
deriving DecidableEq

/-- converter._add_node: add a STIX object as a node keyed by obj["id"].
The none branch mirrors the KeyError CPython would raise; it is unreachable
from convert_bundle, which drops objects without a truthy id first. -/
def add_node (g : Graph) (obj : Obj) : Graph :=
  match look obj "id" with
  | some node_id => g.addNode node_id (obj_to_attrs obj)
  | none => g

/-- converter._add_relationship: add a STIX relationship as a directed edge,
or warn and skip when source_ref or target_ref is missing or falsy. The edge
attributes are the object's attribute dict with source_ref, target_ref and
type popped. -/
def add_relationship (g : Graph) (obj : Obj) : Graph × List LogEvent :=
  if !((look obj "source_ref").getD .null).truthy
      || !((look obj "target_ref").getD .null).truthy then
    (g, [.warnRelationshipMissingRef])
  else
    (g.addEdge ((look obj "source_ref").getD .null) ((look obj "target_ref").getD .null)
      (popKey (popKey (popKey (obj_to_attrs obj) "source_ref") "target_ref") "type"), [])

/-- Python iteration over a value, as used by the for loops of
converter._add_sighting: lists yield their elements, strings their
characters, dicts their keys. CPython raises TypeError on the remaining
cases; that crash is not modelled (the branch yields nothing) and theorems
about sightings restrict the ref-list fields to lists. -/
def pyIter : Value → List Value
  | .list xs => xs
  | .str s => s.data.map (fun c => .str (String.mk [c]))
  | .dict d => d.map (fun kv => .str kv.1)
  | _ => []

/-- The sighting_of_ref step of converter._add_sighting: one sighting_of
edge when the reference is truthy, none otherwise. -/
def addSightingOf (node_id : Value) (obj : Obj) (g : Graph) : Graph :=
  if ((look obj "sighting_of_ref").getD .null).truthy then
    g.addEdge node_id ((look obj "sighting_of_ref").getD .null)
      [("relationship_type", .str "sighting_of")]
  else g

/-- converter._add_sighting: add a sighting as a node, then a sighting_of
edge if that reference is truthy, then one seen_by edge per entry of
where_sighted_refs, then one observed edge per entry of observed_data_refs.
The none branch mirrors the unreachable KeyError as in add_node. -/
def add_sighting (g : Graph) (obj : Obj) : Graph :=
  match look obj "id" with
  | none => g
  | some node_id =>
    (pyIter ((look obj "observed_data_refs").getD (.list []))).foldl
      (fun g r => g.addEdge node_id r [("relationship_type", .str "observed")])
      ((pyIter ((look obj "where_sighted_refs").getD (.list []))).foldl
        (fun g r => g.addEdge node_id r [("relationship_type", .str "seen_by")])
        (addSightingOf node_id obj (g.addNode node_id (obj_to_attrs obj))))

/-- The body of the for loop of converter.convert_bundle, processing one
element of the bundle's objects list against the accumulated graph and log. -/
def processObj (include_scos : Bool) (st : Graph × List LogEvent) (objv : Value) :
    Graph × List LogEvent :=
  match objv with
  | .dict obj =>
    if !((look obj "type").getD .null).truthy then (st.1, st.2 ++ [.warnNoType])
    else if !((look obj "id").getD .null).truthy then
      if !is_skippable obj then (st.1, st.2 ++ [.warnNoId]) else st
    else if is_skippable obj then st
    else if is_relationship obj then
      ((add_relationship st.1 obj).1, st.2 ++ (add_relationship st.1 obj).2)
    else if is_sighting obj then (add_sighting st.1 obj, st.2)
    else if is_sdo obj then
      if (look obj "type").getD .null = Value.str "observed-data" then
        if include_scos then
          ((extract_stix20_embedded_scos obj).foldl add_node (add_node st.1 obj), st.2)
        else (add_node st.1 obj, st.2)
      else (add_node st.1 obj, st.2)
    else if is_sco obj then
      if include_scos then (add_node st.1 obj, st.2) else st
    else (add_node st.1 obj, st.2 ++ [.debugUnknownType])
  | _ => (st.1, st.2 ++ [.warnNonDictObject])

/-- converter.convert_bundle: process a single STIX bundle dict into an
existing graph, returning the new graph and the log events emitted. -/
def convert_bundle (g : Graph) (bundle : Obj) (include_scos : Bool) :
    Graph × List LogEvent :=
  match (look bundle "objects").getD (.list []) with
  | .list objs => objs.foldl (processObj include_scos) (g, [])
  | _ => (g, [.warnObjectsNotList])

/-- The closed set of classifications the converter dispatch distinguishes. -/
inductive Classification where
  | skippable
  | relationship
  | sighting
  | domainObject
  | observableObject
  | unknown
deriving DecidableEq

/-- The type classifier: the elif dispatch chain of convert_bundle over the
predicates of utils.py, with skippable checked first. -/
def classify (obj : Obj) : Classification :=
  if is_skippable obj then .skippable
  else if is_relationship obj then .relationship
  else if is_sighting obj then .sighting
  else if is_sdo obj then .domainObject
  else if is_sco obj then .observableObject
  else .unknown

/-! Embedding of src/stix2nx/parsers.py, list-source branch. -/

/-- An element of a Python list passed to parse_source: a dict, a str, or a
value of any other runtime type. -/
inductive PySrc where
  | dictE (d : Obj)
  | strE (s : String)
  | otherE
deriving DecidableEq

/-- The ValueError cases _parse_list_source can raise. -/
inductive ParseErr where
  | mixedTypes (idx : Nat)
  | jsonFailed (idx : Nat)
  | notObject (idx : Nat)
  | badElemType
deriving DecidableEq

/-- The enumerate loop of _parse_list_source for a list whose first element
is a str: per element, a non-str raises the mixed-types ValueError, a
failed json.loads raises, a non-dict parse raises; decode stands for
json.loads (none = JSONDecodeError). -/
def parseStrLoop (decode : String → Option Value) : Nat → List PySrc →
    Except ParseErr (List Obj)
  | _, [] => .ok []
  | i, e :: rest =>
    match e with
    | .strE s =>
      match decode s with
      | none => .error (.jsonFailed i)
      | some (.dict d) =>
        match parseStrLoop decode (i + 1) rest with
        | .ok bs => .ok (d :: bs)
        | .error err => .error err
      | some _ => .error (.notObject i)
    | _ => .error (.mixedTypes i)

/-- parsers._parse_list_source: empty list gives no bundles; a dict-first
list is returned as a shallow copy with no per-element validation; a
str-first list is decoded element by element; any other first element is a
ValueError. -/
def parse_list_source (decode : String → Option Value) (source : List PySrc) :
    Except ParseErr (List PySrc) :=
  match source with
  | [] => .ok []
  | first :: _ =>
    match first with
    | .dictE _ => .ok source
    | .strE _ =>
      match parseStrLoop decode 0 source with
      | .ok bs => .ok (bs.map .dictE)
      | .error e => .error e
    | .otherE => .error .badElemType

/-! Lemmas about the association-list dict operations. -/

section AListLemmas

variable {κ β : Type} [DecidableEq κ]

theorem look_eq_none_iff (d : List (κ × β)) (k : κ) :
    look d k = none ↔ k ∉ d.map Prod.fst := by
  induction d with
  | nil => simp [look]
  | cons kv rest ih =>
    obtain ⟨k', v⟩ := kv
    by_cases h : k = k' <;> simp [look, h, ih]

theorem mem_of_look_eq_some {d : List (κ × β)} {k : κ} {w : β}
    (h : look d k = some w) : k ∈ d.map Prod.fst := by
  by_contra hc
  rw [← look_eq_none_iff] at hc
  rw [hc] at h
  exact Option.noConfusion h

theorem look_append (d e : List (κ × β)) (k : κ) :
    look (d ++ e) k = match look d k with
      | some v => some v
      | none => look e k := by
  induction d with
  | nil => simp [look]
  | cons kv rest ih =>
    obtain ⟨k', v⟩ := kv
    by_cases h : k = k' <;> simp [look, h, ih]

theorem look_map_replace (d : List (κ × β)) (k : κ) (v : β) :
    look (d.map (fun kv => if kv.1 = k then (k, v) else kv)) k =
      if (look d k).isSome then some v else none := by
  induction d with
  | nil => rfl
  | cons kv rest ih =>
    obtain ⟨k', w⟩ := kv
    simp only [List.map_cons]
    by_cases h : k' = k
    · rw [if_pos h]
      have hl : look ((k, v) :: rest.map (fun kv => if kv.1 = k then (k, v) else kv)) k
          = some v := by simp [look]
      have hr : look ((k', w) :: rest) k = some w := by simp [look, h.symm]
      rw [hl, hr]
      rfl
    · rw [if_neg h]
      have hk : k ≠ k' := fun hc => h hc.symm
      have hl : look ((k', w) :: rest.map (fun kv => if kv.1 = k then (k, v) else kv)) k
          = look (rest.map (fun kv => if kv.1 = k then (k, v) else kv)) k := by
        simp [look, hk]
      have hr : look ((k', w) :: rest) k = look rest k := by simp [look, hk]
      rw [hl, hr, ih]

theorem look_map_replace_ne (d : List (κ × β)) (k k' : κ) (v : β) (hne : k' ≠ k) :
    look (d.map (fun kv => if kv.1 = k then (k, v) else kv)) k' = look d k' := by
  induction d with
  | nil => rfl
  | cons kv rest ih =>
    obtain ⟨k0, w⟩ := kv
    simp only [List.map_cons]
    by_cases h0 : k0 = k
    · rw [if_pos h0]
      have hl : look ((k, v) :: rest.map (fun kv => if kv.1 = k then (k, v) else kv)) k'
          = look (rest.map (fun kv => if kv.1 = k then (k, v) else kv)) k' := by
        simp [look, hne]
      have hr : look ((k0, w) :: rest) k' = look rest k' := by
        have hne0 : k' ≠ k0 := fun hc => hne (hc.trans h0)
        simp [look, hne0]
      rw [hl, hr, ih]
    · rw [if_neg h0]
      by_cases hk : k' = k0
      · have hl : look ((k0, w) :: rest.map (fun kv => if kv.1 = k then (k, v) else kv)) k'
            = some w := by simp [look, hk]
        have hr : look ((k0, w) :: rest) k' = some w := by simp [look, hk]
        rw [hl, hr]
      · have hl : look ((k0, w) :: rest.map (fun kv => if kv.1 = k then (k, v) else kv)) k'
            = look (rest.map (fun kv => if kv.1 = k then (k, v) else kv)) k' := by
          simp [look, hk]
        have hr : look ((k0, w) :: rest) k' = look rest k' := by simp [look, hk]
        rw [hl, hr, ih]

theorem look_setKey_self (d : List (κ × β)) (k : κ) (v : β) :
    look (setKey d k v) k = some v := by
  unfold setKey
  by_cases h : (look d k).isSome
  · rw [if_pos h, look_map_replace, if_pos h]
  · rw [if_neg h, look_append]
    rw [Option.not_isSome_iff_eq_none] at h
    rw [h]
    simp [look]

theorem look_setKey_ne (d : List (κ × β)) (k k' : κ) (v : β) (hne : k' ≠ k) :
    look (setKey d k v) k' = look d k' := by
  unfold setKey
  by_cases h : (look d k).isSome
  · rw [if_pos h, look_map_replace_ne d k k' v hne]
  · rw [if_neg h, look_append]
    cases hl : look d k' with
    | some w => rfl
    | none => simp [look, hne]

theorem setKey_of_not_mem (d : List (κ × β)) (k : κ) (v : β)
    (h : look d k = none) : setKey d k v = d ++ [(k, v)] := by
  unfold setKey
  simp [h]

theorem keys_setKey (d : List (κ × β)) (k : κ) (v : β) :
    (setKey d k v).map Prod.fst =
      if (look d k).isSome then d.map Prod.fst else d.map Prod.fst ++ [k] := by
  unfold setKey
  by_cases h : (look d k).isSome
  · rw [if_pos h, if_pos h, List.map_map]
    apply List.map_congr_left
    intro kv _
    by_cases hk : kv.1 = k
    · simp [Function.comp, hk]
    · simp [Function.comp, hk]
  · rw [if_neg h, if_neg h]
    simp

theorem lookLast_append (d e : List (κ × β)) (k : κ) :
    lookLast (d ++ e) k = match lookLast e k with
      | some v => some v
      | none => lookLast d k := by
  induction d with
  | nil =>
    show lookLast e k = _
    cases lookLast e k <;> rfl
  | cons kv rest ih =>
    obtain ⟨k', v⟩ := kv
    show (match lookLast (rest ++ e) k with
      | some w => some w
      | none => if k = k' then some v else none) = _
    rw [ih, show lookLast ((k', v) :: rest) k = (match lookLast rest k with
      | some w => some w
      | none => if k = k' then some v else none) from rfl]
    cases lookLast e k <;> cases lookLast rest k <;> rfl

theorem lookLast_map_replace (d : List (κ × β)) (k : κ) (v : β) :
    lookLast (d.map (fun kv => if kv.1 = k then (k, v) else kv)) k =
      if (look d k).isSome then some v else none := by
  induction d with
  | nil => rfl
  | cons kv rest ih =>
    obtain ⟨k', w⟩ := kv
    simp only [List.map_cons]
    by_cases h : k' = k
    · rw [if_pos h]
      rw [show lookLast ((k, v) :: rest.map (fun kv => if kv.1 = k then (k, v) else kv)) k
          = (match lookLast (rest.map (fun kv => if kv.1 = k then (k, v) else kv)) k with
             | some w' => some w'
             | none => if k = k then some v else none) from rfl]
      have hr : look ((k', w) :: rest) k = some w := by simp [look, h.symm]
      rw [ih, hr]
      by_cases hrest : (look rest k).isSome <;> simp [hrest]
    · rw [if_neg h]
      rw [show lookLast ((k', w) :: rest.map (fun kv => if kv.1 = k then (k, v) else kv)) k
          = (match lookLast (rest.map (fun kv => if kv.1 = k then (k, v) else kv)) k with
             | some w' => some w'
             | none => if k = k' then some w else none) from rfl]
      have hk : k ≠ k' := fun hc => h hc.symm
      have hr : look ((k', w) :: rest) k = look rest k := by simp [look, hk]
      rw [ih, hr]
      by_cases hrest : (look rest k).isSome <;> simp [hrest, hk]

theorem lookLast_setKey_self (d : List (κ × β)) (k : κ) (v : β) :
    lookLast (setKey d k v) k = some v := by
  unfold setKey
  by_cases h : (look d k).isSome
  · rw [if_pos h, lookLast_map_replace, if_pos h]
  · rw [if_neg h, lookLast_append]
    simp [lookLast]

theorem look_dictUpdate (d u : List (κ × β)) (k : κ) :
    look (dictUpdate d u) k = match lookLast u k with
      | some v => some v
      | none => look d k := by
  induction u generalizing d with
  | nil => rfl
  | cons kv u ih =>
    obtain ⟨k', v'⟩ := kv
    have step : dictUpdate d ((k', v') :: u) = dictUpdate (setKey d k' v') u := rfl
    rw [step, ih]
    rw [show lookLast ((k', v') :: u) k = (match lookLast u k with
        | some w => some w
        | none => if k = k' then some v' else none) from rfl]
    cases lookLast u k with
    | some w => rfl
    | none =>
      by_cases hk : k = k'
      · subst hk
        rw [look_setKey_self]
        simp
      · rw [look_setKey_ne d k' k v' hk]
        simp [hk]

theorem dictUpdate_eq_append (d u : List (κ × β))
    (hu : (u.map Prod.fst).Nodup)
    (hdisj : ∀ k ∈ u.map Prod.fst, k ∉ d.map Prod.fst) :
    dictUpdate d u = d ++ u := by
  induction u generalizing d with
  | nil => simp [dictUpdate]
  | cons kv u ih =>
    obtain ⟨k, v⟩ := kv
    have step : dictUpdate d ((k, v) :: u) = dictUpdate (setKey d k v) u := rfl
    have hk_not : k ∉ d.map Prod.fst := hdisj k (by simp)
    have hset : setKey d k v = d ++ [(k, v)] :=
      setKey_of_not_mem d k v ((look_eq_none_iff d k).2 hk_not)
    simp only [List.map_cons, List.nodup_cons] at hu
    have hdisj' : ∀ k' ∈ u.map Prod.fst, k' ∉ (d ++ [(k, v)]).map Prod.fst := by
      intro k' hk'
      simp only [List.map_append, List.mem_append, List.map_cons, List.map_nil,
        List.mem_singleton, not_or]
      exact ⟨hdisj k' (by simp [hk']), fun hc => hu.1 (hc ▸ hk')⟩
    rw [step, hset, ih (d ++ [(k, v)]) hu.2 hdisj', List.append_assoc]
    rfl

theorem dictUpdate_nil (u : List (κ × β)) (hu : (u.map Prod.fst).Nodup) :
    dictUpdate ([] : List (κ × β)) u = u := by
  rw [dictUpdate_eq_append ([] : List (κ × β)) u hu (by simp)]
  simp

theorem lookLast_eq_look (d : List (κ × β)) (k : κ)
    (hd : (d.map Prod.fst).Nodup) : lookLast d k = look d k := by
  induction d with
  | nil => rfl
  | cons kv rest ih =>
    obtain ⟨k', v⟩ := kv
    simp only [List.map_cons, List.nodup_cons] at hd
    rw [show lookLast ((k', v) :: rest) k = (match lookLast rest k with
        | some w => some w
        | none => if k = k' then some v else none) from rfl]
    rw [ih hd.2]
    cases hl : look rest k with
    | some w =>
      have hmem : k ∈ rest.map Prod.fst := mem_of_look_eq_some hl
      have hne : k ≠ k' := fun hc => hd.1 (hc ▸ hmem)
      simp [look, hne, hl]
    | none => simp [look, hl]

theorem look_popKey (d : List (κ × β)) (k k' : κ) :
    look (popKey d k) k' = if k' = k then none else look d k' := by
  induction d with
  | nil => simp [popKey, look]
  | cons kv rest ih =>
    obtain ⟨k0, v⟩ := kv
    by_cases h0 : k0 = k
    · subst h0
      have hstep : popKey ((k0, v) :: rest) k0 = popKey rest k0 := by
        simp [popKey]
      rw [hstep, ih]
      by_cases hk : k' = k0
      · simp [hk]
      · simp [hk, look]
    · have hstep : popKey ((k0, v) :: rest) k = (k0, v) :: popKey rest k := by
        simp [popKey, h0]
      rw [hstep]
      by_cases hk : k' = k0
      · subst hk
        have hkk : k' ≠ k := h0
        simp [look, hkk]
      · simp [look, hk, ih]

theorem keys_popKey_sublist (d : List (κ × β)) (k : κ) :
    List.Sublist ((popKey d k).map Prod.fst) (d.map Prod.fst) :=
  List.Sublist.map Prod.fst (List.filter_sublist d)

end AListLemmas

/-! Basic facts about the converter's attribute copying. -/

theorem copyTop_eq (v : Value) : copyTop v = v := by
  cases v <;> rfl

theorem obj_to_attrs_eq (obj : Obj) : obj_to_attrs obj = obj := by
  unfold obj_to_attrs
  have h : (fun kv : String × Value => (kv.1, copyTop kv.2)) = id := by
    funext kv
    cases kv with
    | mk k v => simp [copyTop_eq]
  rw [h, List.map_id]

/-! Lemmas about the graph primitives. -/

/-- The attribute dict a node currently holds, with a missing node and a
node holding an empty dict identified (both behave identically under all
subsequent NetworkX updates). -/
def nodeState (g : Graph) (n : Value) : Obj := (look g.nodes n).getD []


theorem look_nodes_addNode_self (g : Graph) (n : Value) (a : Obj) :
    look (g.addNode n a).nodes n = some (dictUpdate (nodeState g n) a) := by
  unfold Graph.addNode nodeState
  cases h : look g.nodes n with
  | some old => simp [h, look_setKey_self]
  | none => simp [h, look_append, look]

theorem look_nodes_addNode_ne (g : Graph) (n m : Value) (a : Obj) (hne : m ≠ n) :
    look (g.addNode n a).nodes m = look g.nodes m := by
  unfold Graph.addNode
  cases h : look g.nodes n with
  | some old => simp [look_setKey_ne g.nodes n m _ hne]
  | none =>
    show look (g.nodes ++ [(n, dictUpdate [] a)]) m = look g.nodes m
    rw [look_append]
    cases hm : look g.nodes m with
    | some b => rfl
    | none => simp [look, hne]

theorem nodeState_addNode_self (g : Graph) (n : Value) (a : Obj) :
    nodeState (g.addNode n a) n = dictUpdate (nodeState g n) a := by
  unfold nodeState
  rw [look_nodes_addNode_self]
  rfl

theorem nodeState_addNode_ne (g : Graph) (n m : Value) (a : Obj) (hne : m ≠ n) :
    nodeState (g.addNode n a) m = nodeState g m := by
  unfold nodeState
  rw [look_nodes_addNode_ne g n m a hne]

theorem edges_addNode (g : Graph) (n : Value) (a : Obj) :
    (g.addNode n a).edges = g.edges := by
  unfold Graph.addNode
  cases look g.nodes n <;> rfl

theorem isMulti_addNode (g : Graph) (n : Value) (a : Obj) :
    (g.addNode n a).isMulti = g.isMulti := by
  unfold Graph.addNode
  cases look g.nodes n <;> rfl

theorem nodeState_ensureNode (g : Graph) (n m : Value) :
    nodeState (g.ensureNode n) m = nodeState g m := by
  unfold Graph.ensureNode nodeState
  split
  · rfl
  · rw [show ({ g with nodes := g.nodes ++ [(n, [])] } : Graph).nodes
        = g.nodes ++ [(n, [])] from rfl]
    rw [look_append]
    cases hm : look g.nodes m with
    | some b => rfl
    | none =>
      by_cases hmn : m = n
      · subst hmn
        simp [look]
      · simp [look, hmn]

theorem edges_ensureNode (g : Graph) (n : Value) :
    (g.ensureNode n).edges = g.edges := by
  unfold Graph.ensureNode
  split <;> rfl

theorem isMulti_ensureNode (g : Graph) (n : Value) :
    (g.ensureNode n).isMulti = g.isMulti := by
  unfold Graph.ensureNode
  split <;> rfl

theorem nodes_addEdgeAux (g1 : Graph) (u v : Value) (a : Obj) :
    (addEdgeAux g1 u v a).nodes = g1.nodes := by
  unfold addEdgeAux
  split
  · rfl
  · split <;> rfl

theorem isMulti_addEdgeAux (g1 : Graph) (u v : Value) (a : Obj) :
    (addEdgeAux g1 u v a).isMulti = g1.isMulti := by
  unfold addEdgeAux
  split
  · rfl
  · split <;> rfl

theorem nodeState_addEdge (g : Graph) (u v : Value) (a : Obj) (m : Value) :
    nodeState (g.addEdge u v a) m = nodeState g m := by
  unfold Graph.addEdge nodeState
  rw [nodes_addEdgeAux]
  have h1 := nodeState_ensureNode (g.ensureNode u) v m
  have h2 := nodeState_ensureNode g u m
  unfold nodeState at h1 h2
  rw [h1, h2]

theorem isMulti_addEdge (g : Graph) (u v : Value) (a : Obj) :
    (g.addEdge u v a).isMulti = g.isMulti := by
  unfold Graph.addEdge
  rw [isMulti_addEdgeAux, isMulti_ensureNode, isMulti_ensureNode]

theorem edges_addEdge_multi (g : Graph) (u v : Value) (a : Obj)
    (hm : g.isMulti = true) :
    (g.addEdge u v a).edges = g.edges ++ [((u, v), countPair g.edges (u, v), dictUpdate [] a)] := by
  unfold Graph.addEdge addEdgeAux
  have hm1 : ((g.ensureNode u).ensureNode v).isMulti = true := by
    rw [isMulti_ensureNode, isMulti_ensureNode, hm]
  have he : ((g.ensureNode u).ensureNode v).edges = g.edges := by
    rw [edges_ensureNode, edges_ensureNode]
  rw [if_pos hm1, he]

theorem edges_addEdge_digraph_new (g : Graph) (u v : Value) (a : Obj)
    (hm : g.isMulti = false) (hl : look g.edges (u, v) = none) :
    (g.addEdge u v a).edges = g.edges ++ [((u, v), 0, dictUpdate [] a)] := by
  unfold Graph.addEdge addEdgeAux
  have hm1 : ((g.ensureNode u).ensureNode v).isMulti = false := by
    rw [isMulti_ensureNode, isMulti_ensureNode, hm]
  have he : ((g.ensureNode u).ensureNode v).edges = g.edges := by
    rw [edges_ensureNode, edges_ensureNode]
  rw [if_neg (by simp [hm1]), he, hl]

theorem edges_addEdge_digraph_upd (g : Graph) (u v : Value) (a : Obj)
    (ko : Nat × Obj) (hm : g.isMulti = false) (hl : look g.edges (u, v) = some ko) :
    (g.addEdge u v a).edges = setKey g.edges (u, v) (ko.1, dictUpdate ko.2 a) := by
  unfold Graph.addEdge addEdgeAux
  have hm1 : ((g.ensureNode u).ensureNode v).isMulti = false := by
    rw [isMulti_ensureNode, isMulti_ensureNode, hm]
  have he : ((g.ensureNode u).ensureNode v).edges = g.edges := by
    rw [edges_ensureNode, edges_ensureNode]
  rw [if_neg (by simp [hm1]), he, hl]

/-! Monotonic growth: every graph operation only extends the node key list
and the edge endpoint-pair list. -/

/-- g' extends g: the node key list and the edge endpoint-pair list of g are
head segments of those of g'. -/
def Graph.Grows (g g' : Graph) : Prop :=
  (∃ t, g'.nodes.map Prod.fst = g.nodes.map Prod.fst ++ t) ∧
  (∃ t, g'.edges.map Prod.fst = g.edges.map Prod.fst ++ t)

theorem grows_refl (g : Graph) : Graph.Grows g g :=
  ⟨⟨[], by simp⟩, ⟨[], by simp⟩⟩

theorem grows_trans {g g' g'' : Graph}
    (h1 : Graph.Grows g g') (h2 : Graph.Grows g' g'') : Graph.Grows g g'' := by
  obtain ⟨⟨t1, hn1⟩, ⟨s1, he1⟩⟩ := h1
  obtain ⟨⟨t2, hn2⟩, ⟨s2, he2⟩⟩ := h2
  exact ⟨⟨t1 ++ t2, by rw [hn2, hn1, List.append_assoc]⟩,
         ⟨s1 ++ s2, by rw [he2, he1, List.append_assoc]⟩⟩

theorem grows_addNode (g : Graph) (n : Value) (a : Obj) :
    Graph.Grows g (g.addNode n a) := by
  constructor
  · unfold Graph.addNode
    cases h : look g.nodes n with
    | some old =>
      refine ⟨[], ?_⟩
      rw [show ({ g with nodes := setKey g.nodes n (dictUpdate old a) } : Graph).nodes
          = setKey g.nodes n (dictUpdate old a) from rfl]
      rw [keys_setKey]
      simp [h]
    | none => exact ⟨[n], by simp⟩
  · rw [edges_addNode]
    exact ⟨[], by simp⟩

theorem grows_ensureNode (g : Graph) (n : Value) :
    Graph.Grows g (g.ensureNode n) := by
  constructor
  · unfold Graph.ensureNode
    split
    · exact ⟨[], by simp⟩
    · exact ⟨[n], by simp⟩
  · rw [edges_ensureNode]
    exact ⟨[], by simp⟩

theorem grows_addEdgeAux (g1 : Graph) (u v : Value) (a : Obj) :
    Graph.Grows g1 (addEdgeAux g1 u v a) := by
  constructor
  · rw [nodes_addEdgeAux]
    exact ⟨[], by simp⟩
  · unfold addEdgeAux
    split
    · exact ⟨[(u, v)], by simp⟩
    · split
      · next ko hl =>
        refine ⟨[], ?_⟩
        rw [show ({ g1 with edges := setKey g1.edges (u, v) (ko.1, dictUpdate ko.2 a) } : Graph).edges
            = setKey g1.edges (u, v) (ko.1, dictUpdate ko.2 a) from rfl]
        rw [keys_setKey]
        simp [hl]
      · exact ⟨[(u, v)], by simp⟩

theorem grows_addEdge (g : Graph) (u v : Value) (a : Obj) :
    Graph.Grows g (g.addEdge u v a) :=
  grows_trans (grows_trans (grows_ensureNode g u) (grows_ensureNode (g.ensureNode u) v))
    (grows_addEdgeAux ((g.ensureNode u).ensureNode v) u v a)

theorem grows_add_node (g : Graph) (obj : Obj) : Graph.Grows g (add_node g obj) := by
  unfold add_node
  cases look obj "id" with
  | some i => exact grows_addNode g i (obj_to_attrs obj)
  | none => exact grows_refl g

theorem grows_foldl_add_node (scos : List Obj) (g : Graph) :
    Graph.Grows g (scos.foldl add_node g) := by
  induction scos generalizing g with
  | nil => exact grows_refl g
  | cons s rest ih => exact grows_trans (grows_add_node g s) (ih (add_node g s))

theorem grows_foldl (f : Graph → Value → Graph)
    (hf : ∀ g r, Graph.Grows g (f g r)) (refs : List Value) (g : Graph) :
    Graph.Grows g (refs.foldl f g) := by
  induction refs generalizing g with
  | nil => exact grows_refl g
  | cons r rest ih => exact grows_trans (hf g r) (ih (f g r))

theorem grows_add_relationship (g : Graph) (obj : Obj) :
    Graph.Grows g (add_relationship g obj).1 := by
  unfold add_relationship
  split
  · exact grows_refl g
  · exact grows_addEdge g _ _ _

theorem grows_addSightingOf (node_id : Value) (obj : Obj) (g : Graph) :
    Graph.Grows g (addSightingOf node_id obj g) := by
  unfold addSightingOf
  split
  · exact grows_addEdge g _ _ _
  · exact grows_refl g

theorem grows_add_sighting (g : Graph) (obj : Obj) :
    Graph.Grows g (add_sighting g obj) := by
  unfold add_sighting
  cases look obj "id" with
  | none => exact grows_refl g
  | some node_id =>
    refine grows_trans (grows_trans (grows_trans
      (grows_addNode g node_id (obj_to_attrs obj))
      (grows_addSightingOf node_id obj _))
      (grows_foldl _ (fun g r => grows_addEdge g node_id r _) _ _))
      (grows_foldl _ (fun g r => grows_addEdge g node_id r _) _ _)

theorem grows_processObj (incl : Bool) (st : Graph × List LogEvent) (objv : Value) :
    Graph.Grows st.1 (processObj incl st objv).1 := by
  cases objv with
  | dict obj =>
    dsimp only [processObj]
    split
    · exact grows_refl st.1
    · split
      · split
        · exact grows_refl st.1
        · exact grows_refl st.1
      · split
        · exact grows_refl st.1
        · split
          · exact grows_add_relationship st.1 obj
          · split
            · exact grows_add_sighting st.1 obj
            · split
              · split
                · split
                  · exact grows_trans (grows_add_node st.1 obj)
                      (grows_foldl_add_node _ _)
                  · exact grows_add_node st.1 obj
                · exact grows_add_node st.1 obj
              · split
                · split
                  · exact grows_add_node st.1 obj
                  · exact grows_refl st.1
                · exact grows_add_node st.1 obj
  | str s => exact grows_refl st.1
  | num n => exact grows_refl st.1
  | bool b => exact grows_refl st.1
  | null => exact grows_refl st.1
  | list xs => exact grows_refl st.1

theorem grows_foldl_processObj (incl : Bool) (objs : List Value)
    (st : Graph × List LogEvent) :
    Graph.Grows st.1 (objs.foldl (processObj incl) st).1 := by
  induction objs generalizing st with
  | nil => exact grows_refl st.1
  | cons o rest ih =>
    exact grows_trans (grows_processObj incl st o) (ih (processObj incl st o))

theorem grows_convert_bundle (g : Graph) (bundle : Obj) (incl : Bool) :
    Graph.Grows g (convert_bundle g bundle incl).1 := by
  unfold convert_bundle
  cases h : (look bundle "objects").getD (.list []) with
  | list objs => exact grows_foldl_processObj incl objs (g, [])
  | str s => exact grows_refl g
  | num n => exact grows_refl g
  | bool b => exact grows_refl g
  | null => exact grows_refl g
  | dict d => exact grows_refl g

/-! Node-key and id-attribute coherence. -/

theorem look_mem {κ β : Type} [DecidableEq κ] {d : List (κ × β)} {k : κ} {v : β}
    (h : look d k = some v) : (k, v) ∈ d := by
  induction d with
  | nil => exact absurd h (by simp [look])
  | cons kv rest ih =>
    obtain ⟨k', w⟩ := kv
    by_cases hk : k = k'
    · subst hk
      rw [show look ((k, w) :: rest) k = some w from by simp [look]] at h
      injection h with h
      exact h ▸ List.mem_cons_self _ _
    · rw [show look ((k', w) :: rest) k = look rest k from by simp [look, hk]] at h
      exact List.mem_cons_of_mem _ (ih h)

theorem mem_setKey {κ β : Type} [DecidableEq κ] {d : List (κ × β)} {k : κ} {v : β}
    {p : κ × β} (hp : p ∈ setKey d k v) : p = (k, v) ∨ (p ∈ d ∧ p.1 ≠ k) := by
  unfold setKey at hp
  by_cases h : (look d k).isSome
  · rw [if_pos h] at hp
    obtain ⟨q, hq, hfq⟩ := List.mem_map.1 hp
    by_cases hqk : q.1 = k
    · left
      rw [← hfq, if_pos hqk]
    · right
      rw [← hfq, if_neg hqk]
      exact ⟨hq, hqk⟩
  · rw [if_neg h] at hp
    rcases List.mem_append.1 hp with h' | h'
    · right
      refine ⟨h', ?_⟩
      rw [Option.not_isSome_iff_eq_none, look_eq_none_iff] at h
      exact fun hc => h (hc ▸ List.mem_map_of_mem Prod.fst h')
    · left
      simpa using h'

/-- Invariant: every node whose attribute dict carries an id attribute has
that attribute equal to the node's graph key. -/
def NodeIdCoherent (g : Graph) : Prop :=
  ∀ p ∈ g.nodes, ∀ w, look p.2 "id" = some w → w = p.1

theorem coherent_addNode {g : Graph} {n : Value} {a : Obj}
    (hga : lookLast a "id" = none ∨ lookLast a "id" = some n)
    (hg : NodeIdCoherent g) : NodeIdCoherent (g.addNode n a) := by
  intro p hp w hw
  unfold Graph.addNode at hp
  cases hgn : look g.nodes n with
  | some old =>
    rw [hgn] at hp
    replace hp : p ∈ setKey g.nodes n (dictUpdate old a) := hp
    rcases mem_setKey hp with hpe | ⟨hpd, _⟩
    · subst hpe
      rw [show ((n, dictUpdate old a) : Value × Obj).2 = dictUpdate old a from rfl,
        look_dictUpdate] at hw
      rcases hga with hll | hll
      · rw [hll] at hw
        exact hg (n, old) (look_mem hgn) w hw
      · rw [hll] at hw
        injection hw with hw
        exact hw.symm
    · exact hg p hpd w hw
  | none =>
    rw [hgn] at hp
    replace hp : p ∈ g.nodes ++ [(n, dictUpdate [] a)] := hp
    rcases List.mem_append.1 hp with h' | h'
    · exact hg p h' w hw
    · replace h' : p = (n, dictUpdate [] a) := by simpa using h'
      subst h'
      rw [show ((n, dictUpdate [] a) : Value × Obj).2 = dictUpdate [] a from rfl,
        look_dictUpdate] at hw
      rcases hga with hll | hll
      · rw [hll] at hw
        exact absurd hw (by simp [look])
      · rw [hll] at hw
        injection hw with hw
        exact hw.symm

theorem coherent_ensureNode {g : Graph} (n : Value)
    (hg : NodeIdCoherent g) : NodeIdCoherent (g.ensureNode n) := by
  intro p hp w hw
  unfold Graph.ensureNode at hp
  by_cases h : (look g.nodes n).isSome
  · rw [if_pos h] at hp
    exact hg p hp w hw
  · rw [if_neg h] at hp
    replace hp : p ∈ g.nodes ++ [(n, [])] := hp
    rcases List.mem_append.1 hp with h' | h'
    · exact hg p h' w hw
    · replace h' : p = (n, ([] : Obj)) := by simpa using h'
      subst h'
      exact absurd hw (by simp [look])

theorem coherent_addEdge {g : Graph} (u v : Value) (a : Obj)
    (hg : NodeIdCoherent g) : NodeIdCoherent (g.addEdge u v a) := by
  intro p hp w hw
  unfold Graph.addEdge at hp
  rw [nodes_addEdgeAux] at hp
  exact coherent_ensureNode v (coherent_ensureNode u hg) p hp w hw

theorem coherent_add_node {g : Graph} {obj : Obj}
    (hobj : lookLast obj "id" = look obj "id")
    (hg : NodeIdCoherent g) : NodeIdCoherent (add_node g obj) := by
  unfold add_node
  cases hid : look obj "id" with
  | none => exact hg
  | some i =>
    rw [obj_to_attrs_eq]
    exact coherent_addNode (Or.inr (hobj.trans hid)) hg

theorem extractLoop_mem_id {pid : Value} {entries : List (String × Value)} {sco : Obj}
    (h : sco ∈ extractLoop pid entries) :
    ∃ w, look sco "id" = some w ∧ lookLast sco "id" = some w := by
  induction entries with
  | nil => exact absurd h (by simp [extractLoop])
  | cons kv rest ih =>
    obtain ⟨key, v⟩ := kv
    cases v with
    | dict d =>
      simp only [extractLoop] at h
      by_cases ht : ((look d "type").getD (Value.str "")).truthy = true
      · rw [if_pos ht] at h
        by_cases hs : (look (setKey d "id"
            (Value.str (pyStr pid ++ "--embedded-" ++ key))) "type").isSome = true
        · rw [if_pos hs] at h
          rcases List.mem_cons.1 h with he | hm
          · subst he
            exact ⟨Value.str (pyStr pid ++ "--embedded-" ++ key),
              look_setKey_self d "id" _, lookLast_setKey_self d "id" _⟩
          · exact ih hm
        · rw [if_neg hs] at h
          exact ih h
      · rw [if_neg ht] at h
        exact ih h
    | str s =>
      simp only [extractLoop] at h
      exact ih h
    | num n =>
      simp only [extractLoop] at h
      exact ih h
    | bool b =>
      simp only [extractLoop] at h
      exact ih h
    | null =>
      simp only [extractLoop] at h
      exact ih h
    | list xs =>
      simp only [extractLoop] at h
      exact ih h

theorem extract_mem_id {obj : Obj} {sco : Obj}
    (h : sco ∈ extract_stix20_embedded_scos obj) :
    ∃ w, look sco "id" = some w ∧ lookLast sco "id" = some w := by
  unfold extract_stix20_embedded_scos at h
  cases hv : (look obj "objects").getD (.dict []) with
  | dict entries =>
    rw [hv] at h
    exact extractLoop_mem_id h
  | str s => rw [hv] at h; exact absurd h (by simp)
  | num n => rw [hv] at h; exact absurd h (by simp)
  | bool b => rw [hv] at h; exact absurd h (by simp)
  | null => rw [hv] at h; exact absurd h (by simp)
  | list xs => rw [hv] at h; exact absurd h (by simp)

theorem coherent_foldl_add_node {g : Graph} {scos : List Obj}
    (hscos : ∀ sco ∈ scos, lookLast sco "id" = look sco "id")
    (hg : NodeIdCoherent g) : NodeIdCoherent (scos.foldl add_node g) := by
  induction scos generalizing g with
  | nil => exact hg
  | cons s rest ih =>
    exact ih (fun sco hm => hscos sco (List.mem_cons_of_mem _ hm))
      (coherent_add_node (hscos s (List.mem_cons_self _ _)) hg)

theorem coherent_add_relationship {g : Graph} (obj : Obj)
    (hg : NodeIdCoherent g) : NodeIdCoherent (add_relationship g obj).1 := by
  unfold add_relationship
  split
  · exact hg
  · exact coherent_addEdge _ _ _ hg

theorem coherent_addSightingOf {g : Graph} (node_id : Value) (obj : Obj)
    (hg : NodeIdCoherent g) : NodeIdCoherent (addSightingOf node_id obj g) := by
  unfold addSightingOf
  split
  · exact coherent_addEdge _ _ _ hg
  · exact hg

theorem coherent_foldl_addEdge {g : Graph} (n : Value) (attrs : Obj) (refs : List Value)
    (hg : NodeIdCoherent g) :
    NodeIdCoherent (refs.foldl (fun g r => g.addEdge n r attrs) g) := by
  induction refs generalizing g with
  | nil => exact hg
  | cons r rest ih => exact ih (coherent_addEdge n r attrs hg)

theorem coherent_add_sighting {g : Graph} {obj : Obj}
    (hobj : lookLast obj "id" = look obj "id")
    (hg : NodeIdCoherent g) : NodeIdCoherent (add_sighting g obj) := by
  unfold add_sighting
  cases hid : look obj "id" with
  | none => exact hg
  | some node_id =>
    apply coherent_foldl_addEdge
    apply coherent_foldl_addEdge
    apply coherent_addSightingOf
    rw [obj_to_attrs_eq]
    exact coherent_addNode (Or.inr (hobj.trans hid)) hg

/-- Every dict value in a parsed JSON document has pairwise distinct keys;
non-dict values impose no constraint. -/
def dictKeysNodup : Value → Bool
  | .dict d => decide ((d.map Prod.fst).Nodup)
  | _ => true

theorem coherent_processObj {incl : Bool} {st : Graph × List LogEvent} {objv : Value}
    (hobjv : dictKeysNodup objv = true)
    (hg : NodeIdCoherent st.1) : NodeIdCoherent (processObj incl st objv).1 := by
  cases objv with
  | dict obj =>
    have hnd : (obj.map Prod.fst).Nodup := by simpa [dictKeysNodup] using hobjv
    have hobj : lookLast obj "id" = look obj "id" := lookLast_eq_look obj "id" hnd
    dsimp only [processObj]
    split
    · exact hg
    · split
      · split
        · exact hg
        · exact hg
      · split
        · exact hg
        · split
          · exact coherent_add_relationship obj hg
          · split
            · exact coherent_add_sighting hobj hg
            · split
              · split
                · split
                  · exact coherent_foldl_add_node
                      (fun sco hm => by
                        obtain ⟨w, h1, h2⟩ := extract_mem_id hm
                        rw [h1, h2])
                      (coherent_add_node hobj hg)
                  · exact coherent_add_node hobj hg
                · exact coherent_add_node hobj hg
              · split
                · split
                  · exact coherent_add_node hobj hg
                  · exact hg
                · exact coherent_add_node hobj hg
  | str s => exact hg
  | num n => exact hg
  | bool b => exact hg
  | null => exact hg
  | list xs => exact hg

theorem coherent_foldl_processObj {incl : Bool} {objs : List Value}
    {st : Graph × List LogEvent}
    (hwf : objs.all dictKeysNodup = true)
    (hg : NodeIdCoherent st.1) :
    NodeIdCoherent (objs.foldl (processObj incl) st).1 := by
  induction objs generalizing st with
  | nil => exact hg
  | cons o rest ih =>
    rw [List.all_cons, Bool.and_eq_true] at hwf
    exact ih hwf.2 (coherent_processObj hwf.1 hg)

theorem coherent_convert_bundle {g : Graph} {bundle : Obj} {incl : Bool}
    (hwf : ∀ objs, (look bundle "objects").getD (.list []) = .list objs →
      objs.all dictKeysNodup = true)
    (hg : NodeIdCoherent g) : NodeIdCoherent (convert_bundle g bundle incl).1 := by
  unfold convert_bundle
  cases hv : (look bundle "objects").getD (.list []) with
  | list objs => exact coherent_foldl_processObj (hwf objs hv) hg
  | str s => exact hg
  | num n => exact hg
  | bool b => exact hg
  | null => exact hg
  | dict d => exact hg

/-! Frame and write lemmas: which processing steps touch a node's
attribute dict. -/

theorem nodeState_foldl_addEdge (n : Value) (attrs : Obj) (refs : List Value)
    (g : Graph) (m : Value) :
    nodeState (refs.foldl (fun g r => g.addEdge n r attrs) g) m = nodeState g m := by
  induction refs generalizing g with
  | nil => rfl
  | cons r rest ih => rw [List.foldl_cons, ih, nodeState_addEdge]

theorem nodeState_addSightingOf (node_id : Value) (obj : Obj) (g : Graph) (m : Value) :
    nodeState (addSightingOf node_id obj g) m = nodeState g m := by
  unfold addSightingOf
  split
  · rw [nodeState_addEdge]
  · rfl

theorem nodeState_add_relationship (g : Graph) (obj : Obj) (m : Value) :
    nodeState (add_relationship g obj).1 m = nodeState g m := by
  unfold add_relationship
  split
  · rfl
  · rw [show ((g.addEdge ((look obj "source_ref").getD .null)
      ((look obj "target_ref").getD .null)
      (popKey (popKey (popKey (obj_to_attrs obj) "source_ref") "target_ref") "type"),
      ([] : List LogEvent)) : Graph × List LogEvent).1
      = g.addEdge ((look obj "source_ref").getD .null) ((look obj "target_ref").getD .null)
        (popKey (popKey (popKey (obj_to_attrs obj) "source_ref") "target_ref") "type")
      from rfl]
    rw [nodeState_addEdge]

theorem nodeState_add_node_self {g : Graph} {obj : Obj} {X : Value}
    (hid : look obj "id" = some X) :
    nodeState (add_node g obj) X = dictUpdate (nodeState g X) obj := by
  unfold add_node
  rw [hid]
  show nodeState (g.addNode X (obj_to_attrs obj)) X = _
  rw [obj_to_attrs_eq, nodeState_addNode_self]

theorem nodeState_add_node_ne {g : Graph} {obj : Obj} {X : Value}
    (hid : look obj "id" ≠ some X) :
    nodeState (add_node g obj) X = nodeState g X := by
  unfold add_node
  cases h : look obj "id" with
  | none => rfl
  | some i =>
    show nodeState (g.addNode i (obj_to_attrs obj)) X = _
    exact nodeState_addNode_ne g i X _ (fun hc => hid (hc ▸ h))

theorem nodeState_foldl_add_node_ne {scos : List Obj} {g : Graph} {X : Value}
    (hscos : ∀ sco ∈ scos, look sco "id" ≠ some X) :
    nodeState (scos.foldl add_node g) X = nodeState g X := by
  induction scos generalizing g with
  | nil => rfl
  | cons s rest ih =>
    rw [List.foldl_cons, ih (fun sco hm => hscos sco (List.mem_cons_of_mem _ hm)),
      nodeState_add_node_ne (hscos s (List.mem_cons_self _ _))]

theorem nodeState_add_sighting_ne {g : Graph} {obj : Obj} {X : Value}
    (hid : look obj "id" ≠ some X) :
    nodeState (add_sighting g obj) X = nodeState g X := by
  unfold add_sighting
  cases h : look obj "id" with
  | none => rfl
  | some node_id =>
    rw [nodeState_foldl_addEdge, nodeState_foldl_addEdge, nodeState_addSightingOf]
    exact nodeState_addNode_ne g node_id X _ (fun hc => hid (hc ▸ h))

/-- Whether processing this raw object can write the attribute dict of the
node keyed X: it carries id X itself, or extracts an embedded SCO whose
synthetic id is X. -/
def writesNode (X : Value) (objv : Value) : Bool :=
  match objv with
  | .dict obj => decide (look obj "id" = some X)
      || (extract_stix20_embedded_scos obj).any (fun sco => decide (look sco "id" = some X))
  | _ => false

theorem nodeState_processObj_frame {incl : Bool} {st : Graph × List LogEvent}
    {objv : Value} {X : Value} (hw : writesNode X objv = false) :
    nodeState (processObj incl st objv).1 X = nodeState st.1 X := by
  cases objv with
  | dict obj =>
    have hw' : ¬(look obj "id" = some X) ∧
        ∀ sco ∈ extract_stix20_embedded_scos obj, ¬(look sco "id" = some X) := by
      simpa [writesNode, List.any_eq_false] using hw
    dsimp only [processObj]
    split
    · rfl
    · split
      · split
        · rfl
        · rfl
      · split
        · rfl
        · split
          · exact nodeState_add_relationship st.1 obj X
          · split
            · exact nodeState_add_sighting_ne hw'.1
            · split
              · split
                · split
                  · rw [show ((extract_stix20_embedded_scos obj).foldl add_node
                        (add_node st.1 obj), st.2).1
                      = (extract_stix20_embedded_scos obj).foldl add_node
                        (add_node st.1 obj) from rfl]
                    rw [nodeState_foldl_add_node_ne (fun sco hm hc => hw'.2 sco hm hc),
                      nodeState_add_node_ne hw'.1]
                  · exact nodeState_add_node_ne hw'.1
                · exact nodeState_add_node_ne hw'.1
              · split
                · split
                  · exact nodeState_add_node_ne hw'.1
                  · rfl
                · exact nodeState_add_node_ne hw'.1
  | str s => rfl
  | num n => rfl
  | bool b => rfl
  | null => rfl
  | list xs => rfl

theorem nodeState_foldl_frame {incl : Bool} {X : Value} {objs : List Value}
    {st : Graph × List LogEvent}
    (h : ∀ v ∈ objs, writesNode X v = false) :
    nodeState (objs.foldl (processObj incl) st).1 X = nodeState st.1 X := by
  induction objs generalizing st with
  | nil => rfl
  | cons o rest ih =>
    rw [List.foldl_cons, ih (fun v hv => h v (List.mem_cons_of_mem _ hv)),
      nodeState_processObj_frame (h o (List.mem_cons_self _ _))]

theorem truthy_str_iff (s : String) : (Value.str s).truthy = true ↔ s ≠ "" := by
  simp [Value.truthy]
  rw [← Bool.not_eq_true, String.isEmpty_iff]

theorem classify_facts_domain {obj : Obj} (h : classify obj = .domainObject) :
    is_skippable obj = false ∧ is_relationship obj = false ∧
    is_sighting obj = false ∧ is_sdo obj = true := by
  unfold classify at h
  by_cases h1 : is_skippable obj = true
  · rw [if_pos h1] at h
    exact Classification.noConfusion h
  · rw [if_neg h1] at h
    by_cases h2 : is_relationship obj = true
    · rw [if_pos h2] at h
      exact Classification.noConfusion h
    · rw [if_neg h2] at h
      by_cases h3 : is_sighting obj = true
      · rw [if_pos h3] at h
        exact Classification.noConfusion h
      · rw [if_neg h3] at h
        by_cases h4 : is_sdo obj = true
        · exact ⟨by simpa using h1, by simpa using h2, by simpa using h3, h4⟩
        · rw [if_neg h4] at h
          by_cases h5 : is_sco obj = true
          · rw [if_pos h5] at h
            exact Classification.noConfusion h
          · rw [if_neg h5] at h
            exact Classification.noConfusion h

theorem nodeState_processObj_write {incl : Bool} {st : Graph × List LogEvent}
    {obj : Obj} {X : Value} {ty : String}
    (hty : look obj "type" = some (.str ty))
    (htyt : (Value.str ty).truthy = true)
    (hid : look obj "id" = some X)
    (hidt : X.truthy = true)
    (hcls : classify obj = .domainObject)
    (hnotobs : ty ≠ "observed-data") :
    nodeState (processObj incl st (.dict obj)).1 X
      = dictUpdate (nodeState st.1 X) obj := by
  obtain ⟨hskip, hrel, hsig, hsdo⟩ := classify_facts_domain hcls
  dsimp only [processObj]
  rw [if_neg (by simp [hty, htyt] :
    ¬((!((look obj "type").getD Value.null).truthy) = true))]
  rw [if_neg (by simp [hid, hidt] :
    ¬((!((look obj "id").getD Value.null).truthy) = true))]
  rw [if_neg (by simp [hskip] : ¬(is_skippable obj = true))]
  rw [if_neg (by simp [hrel] : ¬(is_relationship obj = true))]
  rw [if_neg (by simp [hsig] : ¬(is_sighting obj = true))]
  rw [if_pos hsdo]
  rw [if_neg (by simp [hty, hnotobs] :
    ¬((look obj "type").getD Value.null = Value.str "observed-data"))]
  show nodeState (add_node st.1 obj) X = _
  exact nodeState_add_node_self hid

/-! Edge bookkeeping on multigraphs. -/

/-- An edge with its auto-assigned key dropped: endpoint pair and attribute
dict. -/
def edgeData (e : EdgeKey × Nat × Obj) : EdgeKey × Obj := (e.1, e.2.2)

theorem isMulti_foldl_addEdge (n : Value) (attrs : Obj) (refs : List Value)
    (g : Graph) :
    (refs.foldl (fun g r => g.addEdge n r attrs) g).isMulti = g.isMulti := by
  induction refs generalizing g with
  | nil => rfl
  | cons r rest ih => rw [List.foldl_cons, ih, isMulti_addEdge]

theorem isMulti_addSightingOf (node_id : Value) (obj : Obj) (g : Graph) :
    (addSightingOf node_id obj g).isMulti = g.isMulti := by
  unfold addSightingOf
  split
  · rw [isMulti_addEdge]
  · rfl

theorem edges_foldl_addEdge_multi (n : Value) (attrs : Obj) (refs : List Value)
    (g : Graph) (hm : g.isMulti = true) :
    (refs.foldl (fun g r => g.addEdge n r attrs) g).edges.map edgeData
      = g.edges.map edgeData ++ refs.map (fun r => ((n, r), dictUpdate [] attrs)) := by
  induction refs generalizing g with
  | nil => simp
  | cons r rest ih =>
    rw [List.foldl_cons, ih _ (by rw [isMulti_addEdge]; exact hm),
      edges_addEdge_multi g n r attrs hm]
    simp [edgeData]

theorem edges_addSightingOf_multi (node_id : Value) (obj : Obj) (g : Graph)
    (hm : g.isMulti = true) :
    (addSightingOf node_id obj g).edges.map edgeData = g.edges.map edgeData ++
      (if ((look obj "sighting_of_ref").getD Value.null).truthy
       then [((node_id, (look obj "sighting_of_ref").getD Value.null),
             [("relationship_type", Value.str "sighting_of")])]
       else []) := by
  unfold addSightingOf
  by_cases h : ((look obj "sighting_of_ref").getD Value.null).truthy = true
  · rw [if_pos h, if_pos h, edges_addEdge_multi _ _ _ _ hm, List.map_append]
    rfl
  · rw [if_neg h, if_neg h, List.append_nil]

theorem look_nodes_ensureNode_of_isSome {g : Graph} {m : Value} (n : Value)
    (h : (look g.nodes m).isSome) :
    look (g.ensureNode n).nodes m = look g.nodes m := by
  unfold Graph.ensureNode
  split
  · rfl
  · show look (g.nodes ++ [(n, [])]) m = look g.nodes m
    rw [look_append]
    cases hm : look g.nodes m with
    | some b => rfl
    | none => rw [hm] at h; exact absurd h (by simp)

theorem look_nodes_addEdge_of_isSome {g : Graph} {m : Value} (u v : Value) (a : Obj)
    (h : (look g.nodes m).isSome) :
    look (g.addEdge u v a).nodes m = look g.nodes m := by
  unfold Graph.addEdge
  rw [nodes_addEdgeAux]
  rw [look_nodes_ensureNode_of_isSome v, look_nodes_ensureNode_of_isSome u h]
  rw [look_nodes_ensureNode_of_isSome u h]
  exact h

theorem look_nodes_foldl_addEdge_of_isSome {g : Graph} {m : Value}
    (n : Value) (attrs : Obj) (refs : List Value)
    (h : (look g.nodes m).isSome) :
    look ((refs.foldl (fun g r => g.addEdge n r attrs) g)).nodes m = look g.nodes m := by
  induction refs generalizing g with
  | nil => rfl
  | cons r rest ih =>
    rw [List.foldl_cons]
    rw [ih (by rw [look_nodes_addEdge_of_isSome n r attrs h]; exact h),
      look_nodes_addEdge_of_isSome n r attrs h]

theorem look_nodes_addSightingOf_of_isSome {g : Graph} {m : Value}
    (node_id : Value) (obj : Obj) (h : (look g.nodes m).isSome) :
    look (addSightingOf node_id obj g).nodes m = look g.nodes m := by
  unfold addSightingOf
  split
  · rw [look_nodes_addEdge_of_isSome _ _ _ h]
  · rfl

theorem add_sighting_eq {g : Graph} {obj : Obj} {node_id : Value}
    (hid : look obj "id" = some node_id) :
    add_sighting g obj =
      (pyIter ((look obj "observed_data_refs").getD (.list []))).foldl
        (fun g r => g.addEdge node_id r [("relationship_type", .str "observed")])
        ((pyIter ((look obj "where_sighted_refs").getD (.list []))).foldl
          (fun g r => g.addEdge node_id r [("relationship_type", .str "seen_by")])
          (addSightingOf node_id obj (g.addNode node_id (obj_to_attrs obj)))) := by
  unfold add_sighting
  rw [hid]

theorem edges_add_sighting_multi {g : Graph} {obj : Obj} {node_id : Value}
    {ws os : List Value}
    (hm : g.isMulti = true) (hid : look obj "id" = some node_id)
    (hws : (look obj "where_sighted_refs").getD (.list []) = .list ws)
    (hos : (look obj "observed_data_refs").getD (.list []) = .list os) :
    (add_sighting g obj).edges.map edgeData = g.edges.map edgeData
      ++ (if ((look obj "sighting_of_ref").getD Value.null).truthy
          then [((node_id, (look obj "sighting_of_ref").getD Value.null),
                [("relationship_type", Value.str "sighting_of")])] else [])
      ++ ws.map (fun r => ((node_id, r), [("relationship_type", Value.str "seen_by")]))
      ++ os.map (fun r => ((node_id, r), [("relationship_type", Value.str "observed")])) := by
  rw [add_sighting_eq hid, hws, hos]
  simp only [pyIter]
  have hm1 : (g.addNode node_id (obj_to_attrs obj)).isMulti = true := by
    rw [isMulti_addNode]; exact hm
  have hm2 : (addSightingOf node_id obj (g.addNode node_id (obj_to_attrs obj))).isMulti = true := by
    rw [isMulti_addSightingOf]; exact hm1
  have hm3 : ((ws.foldl (fun g r => g.addEdge node_id r
      [("relationship_type", Value.str "seen_by")])
      (addSightingOf node_id obj (g.addNode node_id (obj_to_attrs obj))))).isMulti = true := by
    rw [isMulti_foldl_addEdge]; exact hm2
  rw [edges_foldl_addEdge_multi _ _ _ _ hm3, edges_foldl_addEdge_multi _ _ _ _ hm2,
    edges_addSightingOf_multi _ _ _ hm1, edges_addNode]
  have hupd : ∀ s : String, dictUpdate ([] : Obj) [("relationship_type", Value.str s)]
      = [("relationship_type", Value.str s)] := fun s => rfl
  rw [hupd, hupd]

theorem nodeState_add_sighting_self {g : Graph} {obj : Obj} {node_id : Value}
    (hid : look obj "id" = some node_id) :
    nodeState (add_sighting g obj) node_id = dictUpdate (nodeState g node_id) obj := by
  rw [add_sighting_eq hid, nodeState_foldl_addEdge, nodeState_foldl_addEdge,
    nodeState_addSightingOf, obj_to_attrs_eq, nodeState_addNode_self]

theorem look_nodes_add_sighting_self {g : Graph} {obj : Obj} {node_id : Value}
    (hid : look obj "id" = some node_id) :
    look (add_sighting g obj).nodes node_id
      = some (dictUpdate (nodeState g node_id) obj) := by
  rw [add_sighting_eq hid]
  have h0 : look (addSightingOf node_id obj (g.addNode node_id (obj_to_attrs obj))).nodes node_id
      = some (dictUpdate (nodeState g node_id) obj) := by
    rw [look_nodes_addSightingOf_of_isSome]
    · rw [look_nodes_addNode_self, obj_to_attrs_eq]
    · rw [look_nodes_addNode_self]
      simp
  have h1 : (look ((pyIter ((look obj "where_sighted_refs").getD (.list []))).foldl
      (fun g r => g.addEdge node_id r [("relationship_type", .str "seen_by")])
      (addSightingOf node_id obj (g.addNode node_id (obj_to_attrs obj)))).nodes node_id)
      = some (dictUpdate (nodeState g node_id) obj) := by
    rw [look_nodes_foldl_addEdge_of_isSome _ _ _ (by rw [h0]; simp), h0]
  rw [look_nodes_foldl_addEdge_of_isSome _ _ _ (by rw [h1]; simp), h1]

/-! The classifier on string-typed objects. -/

theorem is_skippable_str {obj : Obj} {s : String}
    (h : look obj "type" = some (.str s)) :
    is_skippable obj = SKIP_TYPES.contains s := by
  unfold is_skippable
  rw [h]
  rfl

theorem is_sco_str {obj : Obj} {s : String}
    (h : look obj "type" = some (.str s)) :
    is_sco obj = SCO_TYPES.contains s := by
  unfold is_sco
  rw [h]
  rfl

theorem is_sdo_str {obj : Obj} {s : String}
    (h : look obj "type" = some (.str s)) :
    is_sdo obj = (SDO_TYPES.contains s
      || CUSTOM_SDO_PREFIXES.any (fun p => pyStartsWith s p)) := by
  unfold is_sdo
  rw [h]
  rfl

theorem is_relationship_str {obj : Obj} {s : String}
    (h : look obj "type" = some (.str s)) :
    is_relationship obj = decide (s = "relationship") := by
  unfold is_relationship
  rw [h]
  by_cases hs : s = "relationship"
  · subst hs
    simp
  · simp [hs]

theorem is_sighting_str {obj : Obj} {s : String}
    (h : look obj "type" = some (.str s)) :
    is_sighting obj = decide (s = "sighting") := by
  unfold is_sighting
  rw [h]
  by_cases hs : s = "sighting"
  · subst hs
    simp
  · simp [hs]

/-- The classification as a function of the declared type string alone. -/
def classifyStr (s : String) : Classification :=
  if SKIP_TYPES.contains s then .skippable
  else if s = "relationship" then .relationship
  else if s = "sighting" then .sighting
  else if SDO_TYPES.contains s || CUSTOM_SDO_PREFIXES.any (fun p => pyStartsWith s p)
    then .domainObject
  else if SCO_TYPES.contains s then .observableObject
  else .unknown

theorem classify_eq_classifyStr {obj : Obj} {s : String}
    (h : look obj "type" = some (.str s)) :
    classify obj = classifyStr s := by
  unfold classify classifyStr
  rw [is_skippable_str h, is_sdo_str h, is_sco_str h, is_relationship_str h,
    is_sighting_str h]
  by_cases h1 : SKIP_TYPES.contains s = true
  · rw [if_pos h1, if_pos h1]
  · rw [if_neg h1, if_neg h1]
    by_cases h2 : s = "relationship"
    · rw [if_pos (by simp [h2]), if_pos h2]
    · rw [if_neg (by simp [h2]), if_neg h2]
      by_cases h3 : s = "sighting"
      · rw [if_pos (by simp [h3]), if_pos h3]
      · rw [if_neg (by simp [h3]), if_neg h3]

theorem classifyStr_domain_of {s : String}
    (hc : (SDO_TYPES.contains s
      || CUSTOM_SDO_PREFIXES.any (fun p => pyStartsWith s p)) = true) :
    classifyStr s = .domainObject := by
  by_cases hsdo : SDO_TYPES.contains s = true
  · have hmem : s ∈ SDO_TYPES := by simpa using hsdo
    simp only [SDO_TYPES, List.mem_cons, List.not_mem_nil, or_false] at hmem
    rcases hmem with rfl | rfl | rfl | rfl | rfl | rfl | rfl | rfl | rfl | rfl | rfl
      | rfl | rfl | rfl | rfl | rfl | rfl | rfl | rfl <;> decide
  · have hpre : CUSTOM_SDO_PREFIXES.any (fun p => pyStartsWith s p) = true := by
      rcases (Bool.or_eq_true _ _) ▸ hc with h | h
      · exact absurd h hsdo
      · exact h
    have hsw : pyStartsWith s "x-mitre-" = true := by
      simpa [CUSTOM_SDO_PREFIXES] using hpre
    have h1 : ¬(SKIP_TYPES.contains s = true) := by
      intro hc1
      have hm : s ∈ SKIP_TYPES := by simpa using hc1
      simp only [SKIP_TYPES, List.mem_cons, List.not_mem_nil, or_false] at hm
      rcases hm with rfl | rfl <;> exact absurd hsw (by decide)
    have h2 : s ≠ "relationship" := by
      intro hc2
      subst hc2
      exact absurd hsw (by decide)
    have h3 : s ≠ "sighting" := by
      intro hc3
      subst hc3
      exact absurd hsw (by decide)
    unfold classifyStr
    rw [if_neg h1, if_neg h2, if_neg h3, if_pos hc]

theorem classifyStr_domain_iff (s : String) :
    classifyStr s = .domainObject ↔
      (SDO_TYPES.contains s
        || CUSTOM_SDO_PREFIXES.any (fun p => pyStartsWith s p)) = true := by
  constructor
  · intro h
    unfold classifyStr at h
    by_cases h1 : SKIP_TYPES.contains s = true
    · rw [if_pos h1] at h
      exact Classification.noConfusion h
    · rw [if_neg h1] at h
      by_cases h2 : s = "relationship"
      · rw [if_pos h2] at h
        exact Classification.noConfusion h
      · rw [if_neg h2] at h
        by_cases h3 : s = "sighting"
        · rw [if_pos h3] at h
          exact Classification.noConfusion h
        · rw [if_neg h3] at h
          by_cases h4 : (SDO_TYPES.contains s
              || CUSTOM_SDO_PREFIXES.any (fun p => pyStartsWith s p)) = true
          · exact h4
          · rw [if_neg h4] at h
            by_cases h5 : SCO_TYPES.contains s = true
            · rw [if_pos h5] at h
              exact Classification.noConfusion h
            · rw [if_neg h5] at h
              exact Classification.noConfusion h
  · exact classifyStr_domain_of

theorem classify_facts_unknown {obj : Obj} (h : classify obj = .unknown) :
    is_skippable obj = false ∧ is_relationship obj = false ∧ is_sighting obj = false ∧
    is_sdo obj = false ∧ is_sco obj = false := by
  unfold classify at h
  by_cases h1 : is_skippable obj = true
  · rw [if_pos h1] at h
    exact Classification.noConfusion h
  · rw [if_neg h1] at h
    by_cases h2 : is_relationship obj = true
    · rw [if_pos h2] at h
      exact Classification.noConfusion h
    · rw [if_neg h2] at h
      by_cases h3 : is_sighting obj = true
      · rw [if_pos h3] at h
        exact Classification.noConfusion h
      · rw [if_neg h3] at h
        by_cases h4 : is_sdo obj = true
        · rw [if_pos h4] at h
          exact Classification.noConfusion h
        · rw [if_neg h4] at h
          by_cases h5 : is_sco obj = true
          · rw [if_pos h5] at h
            exact Classification.noConfusion h
          · exact ⟨by simpa using h1, by simpa using h2, by simpa using h3,
              by simpa using h4, by simpa using h5⟩

theorem processObj_unknown {incl : Bool} {g : Graph} {logs : List LogEvent}
    {obj : Obj} {ty X : Value}
    (hty : look obj "type" = some ty) (htyt : ty.truthy = true)
    (hid : look obj "id" = some X) (hidt : X.truthy = true)
    (hcls : classify obj = .unknown) :
    processObj incl (g, logs) (.dict obj)
      = (add_node g obj, logs ++ [.debugUnknownType]) := by
  obtain ⟨h1, h2, h3, h4, h5⟩ := classify_facts_unknown hcls
  dsimp only [processObj]
  rw [if_neg (by rw [hty]; simp [htyt] :
    ¬((!((look obj "type").getD Value.null).truthy) = true))]
  rw [if_neg (by rw [hid]; simp [hidt] :
    ¬((!((look obj "id").getD Value.null).truthy) = true))]
  rw [if_neg (by simp [h1] : ¬(is_skippable obj = true))]
  rw [if_neg (by simp [h2] : ¬(is_relationship obj = true))]
  rw [if_neg (by simp [h3] : ¬(is_sighting obj = true))]
  rw [if_neg (by simp [h4] : ¬(is_sdo obj = true))]
  rw [if_neg (by simp [h5] : ¬(is_sco obj = true))]

theorem processObj_relationship {incl : Bool} {g : Graph} {logs : List LogEvent}
    {obj : Obj} {X : Value}
    (hty : look obj "type" = some (.str "relationship"))
    (hid : look obj "id" = some X) (hidt : X.truthy = true) :
    processObj incl (g, logs) (.dict obj)
      = ((add_relationship g obj).1, logs ++ (add_relationship g obj).2) := by
  have hskip : is_skippable obj = false := by
    rw [is_skippable_str hty]
    rfl
  have hrel : is_relationship obj = true := by
    rw [is_relationship_str hty]
    decide
  dsimp only [processObj]
  rw [if_neg (by rw [hty]; decide :
    ¬((!((look obj "type").getD Value.null).truthy) = true))]
  rw [if_neg (by rw [hid]; simp [hidt] :
    ¬((!((look obj "id").getD Value.null).truthy) = true))]
  rw [if_neg (by simp [hskip] : ¬(is_skippable obj = true))]
  rw [if_pos hrel]

theorem processObj_sighting {incl : Bool} {g : Graph} {logs : List LogEvent}
    {obj : Obj} {X : Value}
    (hty : look obj "type" = some (.str "sighting"))
    (hid : look obj "id" = some X) (hidt : X.truthy = true) :
    processObj incl (g, logs) (.dict obj) = (add_sighting g obj, logs) := by
  have hskip : is_skippable obj = false := by
    rw [is_skippable_str hty]
    rfl
  have hrel : is_relationship obj = false := by
    rw [is_relationship_str hty]
    decide
  have hsig : is_sighting obj = true := by
    rw [is_sighting_str hty]
    decide
  dsimp only [processObj]
  rw [if_neg (by rw [hty]; decide :
    ¬((!((look obj "type").getD Value.null).truthy) = true))]
  rw [if_neg (by rw [hid]; simp [hidt] :
    ¬((!((look obj "id").getD Value.null).truthy) = true))]
  rw [if_neg (by simp [hskip] : ¬(is_skippable obj = true))]
  rw [if_neg (by simp [hrel] : ¬(is_relationship obj = true))]
  rw [if_pos hsig]

/-- The bundle loop of stix_to_graph in __init__.py: convert each parsed
bundle in order into the same graph. -/
def convertAll (g : Graph) (bundles : List Obj) (include_scos : Bool) : Graph :=
  bundles.foldl (fun g b => (convert_bundle g b include_scos).1) g

/-- stix_to_graph in __init__.py, specialised to a source that is already a
list of parsed bundle dicts (the loader returns such a list unchanged):
select the graph kind from graph_type, then convert each bundle in order;
any other graph_type raises ValueError. -/
def stix_to_graph (bundles : List Obj) (graph_type : String) (include_scos : Bool) :
    Except String Graph :=
  if graph_type = "multidigraph" then
    .ok (convertAll (Graph.empty true) bundles include_scos)
  else if graph_type = "digraph" then
    .ok (convertAll (Graph.empty false) bundles include_scos)
  else
    .error "graph_type must be multidigraph or digraph"

theorem convert_bundle_nodeState {g : Graph} {bundle : Obj} {incl : Bool} {X : Value}
    {objs pre post : List Value} {obj : Obj} {ty : String}
    (hobjs : (look bundle "objects").getD (.list []) = .list objs)
    (hsplit : objs = pre ++ (.dict obj) :: post)
    (hpre : ∀ v ∈ pre, writesNode X v = false)
    (hpost : ∀ v ∈ post, writesNode X v = false)
    (hty : look obj "type" = some (.str ty)) (htyt : (Value.str ty).truthy = true)
    (hid : look obj "id" = some X) (hidt : X.truthy = true)
    (hcls : classify obj = .domainObject) (hnotobs : ty ≠ "observed-data") :
    nodeState (convert_bundle g bundle incl).1 X = dictUpdate (nodeState g X) obj := by
  unfold convert_bundle
  rw [hobjs]
  show nodeState (objs.foldl (processObj incl) (g, [])).1 X = _
  rw [hsplit, List.foldl_append, List.foldl_cons, nodeState_foldl_frame hpost,
    nodeState_processObj_write hty htyt hid hidt hcls hnotobs]
  show dictUpdate (nodeState ((pre.foldl (processObj incl) (g, []))).1 X) obj = _
  rw [nodeState_foldl_frame hpre]

/-! Claim C1: merge semantics of repeated node ids across bundles. -/

/-- First bundle's version of the shared object: carries a field (extra)
that the second version lacks. -/
def c1objA : Obj :=
  [("type", .str "malware"), ("id", .str "malware--x"),
   ("name", .str "v1"), ("extra", .str "only-in-A")]

/-- Second bundle's version of the shared object. -/
def c1objB : Obj :=
  [("type", .str "malware"), ("id", .str "malware--x"), ("name", .str "v2")]

/-- Bundle containing only c1objA. -/
def c1bundleA : Obj := [("objects", .list [.dict c1objA])]

/-- Bundle containing only c1objB. -/
def c1bundleB : Obj := [("objects", .list [.dict c1objB])]

/-- C1 counterexample: converting bundle A then bundle B into a fresh
multigraph leaves the node keyed malware--x still carrying the field
only A's version had, so its attribute mapping is not exactly B's field
mapping — the later object's mapping does not completely replace the
earlier one. -/
theorem c1_last_write_replacement_counterexample :
    look (nodeState (convert_bundle (convert_bundle (Graph.empty true) c1bundleA true).1
        c1bundleB true).1 (Value.str "malware--x")) "extra" = some (Value.str "only-in-A")
    ∧ look c1objB "extra" = none := by
  decide

/-- C1 (amended): when bundles A and B each contain exactly one object
writing node X (a domain object that is not an observed-data record),
converting A then B leaves node X's attribute dict equal to the Python
dict-update of A's version by B's version: on a fresh node, every field of
B's version takes B's value and a field present only in A's version
survives with A's value (NetworkX add_node merges attribute dicts;
replacement is complete only field-by-field, not dict-wide). -/
theorem c1_merge_dict_update
    (g : Graph) (A B : Obj) (incl : Bool) (X : Value)
    (objsA objsB preA postA preB postB : List Value) (objA objB : Obj)
    (tyA tyB : String)
    (hA : (look A "objects").getD (.list []) = .list objsA)
    (hB : (look B "objects").getD (.list []) = .list objsB)
    (hsA : objsA = preA ++ (.dict objA) :: postA)
    (hsB : objsB = preB ++ (.dict objB) :: postB)
    (hpreA : ∀ v ∈ preA, writesNode X v = false)
    (hpostA : ∀ v ∈ postA, writesNode X v = false)
    (hpreB : ∀ v ∈ preB, writesNode X v = false)
    (hpostB : ∀ v ∈ postB, writesNode X v = false)
    (htyA : look objA "type" = some (.str tyA)) (htyAt : (Value.str tyA).truthy = true)
    (htyB : look objB "type" = some (.str tyB)) (htyBt : (Value.str tyB).truthy = true)
    (hidA : look objA "id" = some X) (hidB : look objB "id" = some X)
    (hidt : X.truthy = true)
    (hclsA : classify objA = .domainObject) (hclsB : classify objB = .domainObject)
    (hoA : tyA ≠ "observed-data") (hoB : tyB ≠ "observed-data") :
    nodeState (convert_bundle (convert_bundle g A incl).1 B incl).1 X
      = dictUpdate (dictUpdate (nodeState g X) objA) objB
    ∧ (look g.nodes X = none → (objA.map Prod.fst).Nodup → (objB.map Prod.fst).Nodup →
        ∀ k, look (nodeState (convert_bundle (convert_bundle g A incl).1 B incl).1 X) k
          = if (look objB k).isSome then look objB k else look objA k) := by
  have h1 : nodeState (convert_bundle g A incl).1 X = dictUpdate (nodeState g X) objA :=
    convert_bundle_nodeState hA hsA hpreA hpostA htyA htyAt hidA hidt hclsA hoA
  have h2 : nodeState (convert_bundle (convert_bundle g A incl).1 B incl).1 X
      = dictUpdate (nodeState (convert_bundle g A incl).1 X) objB :=
    convert_bundle_nodeState hB hsB hpreB hpostB htyB htyBt hidB hidt hclsB hoB
  refine ⟨by rw [h2, h1], ?_⟩
  intro hfresh hndA hndB k
  have hgx : nodeState g X = [] := by
    unfold nodeState
    rw [hfresh]
    rfl
  rw [h2, h1, hgx, look_dictUpdate, lookLast_eq_look objB k hndB]
  cases hlB : look objB k with
  | some w => simp
  | none =>
    rw [look_dictUpdate, lookLast_eq_look objA k hndA]
    cases hlA : look objA k with
    | some w => simp
    | none => simp [look]

/-- C1 witness: the amended merge law applied to the two concrete bundles
of the counterexample. -/
theorem c1_merge_dict_update_witness :
    nodeState (convert_bundle (convert_bundle (Graph.empty true) c1bundleA true).1
        c1bundleB true).1 (Value.str "malware--x")
      = dictUpdate (dictUpdate (nodeState (Graph.empty true) (Value.str "malware--x"))
          c1objA) c1objB :=
  (c1_merge_dict_update (Graph.empty true) c1bundleA c1bundleB true
    (Value.str "malware--x") [.dict c1objA] [.dict c1objB] [] [] [] []
    c1objA c1objB "malware" "malware"
    (by decide) (by decide) rfl rfl (by simp) (by simp) (by simp) (by simp)
    (by decide) (by decide) (by decide) (by decide) (by decide) (by decide)
    (by decide) (by decide) (by decide) (by decide) (by decide)).1

/-! Claim C2: relationship objects become single directed edges. -/

theorem add_relationship_ok {g : Graph} {obj : Obj} {s t : String}
    (hs : look obj "source_ref" = some (.str s)) (hs0 : s ≠ "")
    (ht : look obj "target_ref" = some (.str t)) (ht0 : t ≠ "") :
    add_relationship g obj =
      (g.addEdge (.str s) (.str t)
        (popKey (popKey (popKey obj "source_ref") "target_ref") "type"), []) := by
  unfold add_relationship
  rw [if_neg (by
    simp [hs, ht, (truthy_str_iff s).2 hs0, (truthy_str_iff t).2 ht0])]
  rw [hs, ht, obj_to_attrs_eq]
  rfl

theorem add_relationship_missing {g : Graph} {obj : Obj}
    (h : ((look obj "source_ref").getD Value.null).truthy = false
       ∨ ((look obj "target_ref").getD Value.null).truthy = false) :
    add_relationship g obj = (g, [.warnRelationshipMissingRef]) := by
  unfold add_relationship
  rw [if_pos (by rcases h with h | h <;> simp [h])]

/-- C2: processing a relationship-typed object with a truthy id in
multigraph mode: when source_ref and target_ref are present non-empty
strings, exactly one new directed edge from source to target is appended,
carrying the lookup mapping of the object's fields minus source_ref,
target_ref and type (id, relationship_type, timestamps and all other fields
preserved), and no warning is logged; when either reference is missing or
falsy, the graph is returned unchanged and a warning is logged. -/
theorem c2_relationship_edge
    (g : Graph) (logs : List LogEvent) (incl : Bool) (obj : Obj) (X : Value)
    (hm : g.isMulti = true)
    (hty : look obj "type" = some (.str "relationship"))
    (hid : look obj "id" = some X) (hidt : X.truthy = true)
    (hnd : (obj.map Prod.fst).Nodup) :
    (∀ s t : String, look obj "source_ref" = some (.str s) → s ≠ "" →
      look obj "target_ref" = some (.str t) → t ≠ "" →
      (processObj incl (g, logs) (.dict obj)).2 = logs
      ∧ (processObj incl (g, logs) (.dict obj)).1.edges
          = g.edges ++ [((Value.str s, Value.str t),
              countPair g.edges (Value.str s, Value.str t),
              popKey (popKey (popKey obj "source_ref") "target_ref") "type")]
      ∧ ∀ k, look (popKey (popKey (popKey obj "source_ref") "target_ref") "type") k
          = if k = "source_ref" ∨ k = "target_ref" ∨ k = "type" then none
            else look obj k)
    ∧ (((look obj "source_ref").getD Value.null).truthy = false
        ∨ ((look obj "target_ref").getD Value.null).truthy = false →
      processObj incl (g, logs) (.dict obj) = (g, logs ++ [.warnRelationshipMissingRef])) := by
  have hdisp : processObj incl (g, logs) (Value.dict obj)
      = ((add_relationship g obj).1, logs ++ (add_relationship g obj).2) :=
    processObj_relationship hty hid hidt
  constructor
  · intro s t hs hs0 ht ht0
    have hok : add_relationship g obj
        = (g.addEdge (.str s) (.str t)
            (popKey (popKey (popKey obj "source_ref") "target_ref") "type"), []) :=
      add_relationship_ok hs hs0 ht ht0
    have hnd3 : ((popKey (popKey (popKey obj "source_ref") "target_ref") "type").map
        Prod.fst).Nodup := by
      refine List.Nodup.sublist ?_ hnd
      exact ((keys_popKey_sublist _ "type").trans
        ((keys_popKey_sublist _ "target_ref").trans (keys_popKey_sublist _ "source_ref")))
    refine ⟨?_, ?_, ?_⟩
    · rw [hdisp, hok]
      simp
    · rw [hdisp, hok]
      show (g.addEdge (Value.str s) (Value.str t)
          (popKey (popKey (popKey obj "source_ref") "target_ref") "type")).edges = _
      rw [edges_addEdge_multi _ _ _ _ hm, dictUpdate_nil _ hnd3]
    · intro k
      rw [look_popKey, look_popKey, look_popKey]
      by_cases h1 : k = "type"
      · simp [h1]
      · by_cases h2 : k = "target_ref"
        · simp [h1, h2]
        · by_cases h3 : k = "source_ref" <;> simp [h1, h2, h3]
  · intro hmiss
    rw [hdisp, add_relationship_missing hmiss]

/-- Concrete relationship object for the C2 witness. -/
def c2rel : Obj :=
  [("type", .str "relationship"), ("id", .str "relationship--1"),
   ("relationship_type", .str "uses"),
   ("source_ref", .str "a"), ("target_ref", .str "b")]

/-- C2 witness: the relationship theorem applied to a concrete relationship
object on an empty multigraph. -/
theorem c2_relationship_edge_witness :
    (processObj true (Graph.empty true, []) (.dict c2rel)).1.edges
      = (Graph.empty true).edges ++ [((Value.str "a", Value.str "b"),
          countPair (Graph.empty true).edges (Value.str "a", Value.str "b"),
          popKey (popKey (popKey c2rel "source_ref") "target_ref") "type")] :=
  ((c2_relationship_edge (Graph.empty true) [] true c2rel (Value.str "relationship--1")
    rfl (by decide) (by decide) (by decide) (by decide)).1 "a" "b"
    (by decide) (by decide) (by decide) (by decide)).2.1

/-! Claim C3: sighting objects become a node plus derived edges. -/

/-- Sighting with a present but empty sighting_of_ref, for the C3
counterexample. -/
def c3obj : Obj :=
  [("type", .str "sighting"), ("id", .str "sighting--1"),
   ("sighting_of_ref", .str "")]

/-- C3 counterexample: a sighting whose sighting_of_ref field is present but
an empty string yields zero emitted edges, while the claim's count (1 if
sighting_of_ref is present else 0) demands one: the code tests Python
truthiness, not presence. -/
theorem c3_sighting_count_counterexample :
    look c3obj "sighting_of_ref" = some (Value.str "")
    ∧ (add_sighting (Graph.empty true) c3obj).edges.length = 0
    ∧ ¬((add_sighting (Graph.empty true) c3obj).edges.length = 1) := by
  decide

/-- C3 (amended): for every sighting object with an id, in multigraph mode
with list-valued (or absent) ref-list fields, a node for the sighting is
inserted carrying its full field mapping (dict-updated over any previous
state; exactly the field mapping when the node is fresh), and the emitted
edges from the sighting's id are exactly: one sighting_of-tagged edge if
sighting_of_ref is present and truthy (not merely present), one
seen_by-tagged edge per where_sighted_refs entry and one observed-tagged
edge per observed_data_refs entry, so their count is the claimed sum;
absent optional fields contribute no edges and no error. -/
theorem c3_sighting_edges
    (g : Graph) (obj : Obj) (node_id : Value) (ws os : List Value)
    (hm : g.isMulti = true)
    (hid : look obj "id" = some node_id)
    (hws : (look obj "where_sighted_refs").getD (.list []) = .list ws)
    (hos : (look obj "observed_data_refs").getD (.list []) = .list os) :
    look (add_sighting g obj).nodes node_id
      = some (dictUpdate (nodeState g node_id) obj)
    ∧ (look g.nodes node_id = none → (obj.map Prod.fst).Nodup →
        look (add_sighting g obj).nodes node_id = some obj)
    ∧ (add_sighting g obj).edges.map edgeData = g.edges.map edgeData
        ++ (if ((look obj "sighting_of_ref").getD Value.null).truthy
            then [((node_id, (look obj "sighting_of_ref").getD Value.null),
                  [("relationship_type", Value.str "sighting_of")])] else [])
        ++ ws.map (fun r => ((node_id, r), [("relationship_type", Value.str "seen_by")]))
        ++ os.map (fun r => ((node_id, r), [("relationship_type", Value.str "observed")]))
    ∧ (add_sighting g obj).edges.length = g.edges.length
        + ((if ((look obj "sighting_of_ref").getD Value.null).truthy then 1 else 0)
           + ws.length + os.length) := by
  refine ⟨look_nodes_add_sighting_self hid, ?_, edges_add_sighting_multi hm hid hws hos, ?_⟩
  · intro hfresh hnd
    rw [look_nodes_add_sighting_self hid]
    unfold nodeState
    rw [hfresh]
    show some (dictUpdate [] obj) = some obj
    rw [dictUpdate_nil obj hnd]
  · have h := edges_add_sighting_multi hm hid hws hos
    have h2 : (add_sighting g obj).edges.length
        = ((add_sighting g obj).edges.map edgeData).length := (List.length_map _ _).symm
    rw [h2, h]
    by_cases hso : ((look obj "sighting_of_ref").getD Value.null).truthy = true
    · simp [hso]
      omega
    · simp [hso]

/-- Concrete sighting with one of each reference kind, for the C3 witness. -/
def c3sight : Obj :=
  [("type", .str "sighting"), ("id", .str "sighting--2"),
   ("sighting_of_ref", .str "indicator--1"),
   ("where_sighted_refs", .list [.str "identity--1", .str "identity--2"]),
   ("observed_data_refs", .list [.str "observed-data--1"])]

/-- C3 witness: the amended sighting theorem applied to a concrete sighting
on an empty multigraph: 1 + 2 + 1 edges. -/
theorem c3_sighting_edges_witness :
    (add_sighting (Graph.empty true) c3sight).edges.length
      = (Graph.empty true).edges.length
        + ((if ((look c3sight "sighting_of_ref").getD Value.null).truthy then 1 else 0)
           + [Value.str "identity--1", Value.str "identity--2"].length
           + [Value.str "observed-data--1"].length) :=
  (c3_sighting_edges (Graph.empty true) c3sight (Value.str "sighting--2")
    [.str "identity--1", .str "identity--2"] [.str "observed-data--1"]
    rfl (by decide) (by decide) (by decide)).2.2.2

/-! Claim C4: the type classifier. -/

/-- C4: for every object whose declared type is a string: the type is
classified skippable whenever it is in the skip set (skippable has first
priority); the classification is domain-object if and only if the type is
one of the 19 enumerated SDO strings or starts with the custom prefix
x-mitre-; and an object classified unknown (matching no category) with a
truthy type and id is still materialized as a node carrying its field
mapping. -/
theorem c4_classifier
    (obj : Obj) (s : String) (hty : look obj "type" = some (.str s)) :
    (s ∈ SKIP_TYPES → classify obj = .skippable)
    ∧ (classify obj = .domainObject ↔
        (s ∈ SDO_TYPES ∨ pyStartsWith s "x-mitre-" = true))
    ∧ (classify obj = .unknown →
        ∀ (g : Graph) (logs : List LogEvent) (incl : Bool) (X : Value),
          s ≠ "" → look obj "id" = some X → X.truthy = true →
          look (processObj incl (g, logs) (.dict obj)).1.nodes X
            = some (dictUpdate (nodeState g X) obj)) := by
  refine ⟨?_, ?_, ?_⟩
  · intro hmem
    rw [classify_eq_classifyStr hty]
    unfold classifyStr
    rw [if_pos (by simpa using hmem)]
  · rw [classify_eq_classifyStr hty, classifyStr_domain_iff]
    simp [CUSTOM_SDO_PREFIXES]
  · intro hunk g logs incl X hs0 hid hidt
    have htyt : (Value.str s).truthy = true := (truthy_str_iff s).2 hs0
    rw [processObj_unknown hty htyt hid hidt hunk]
    show look (add_node g obj).nodes X = _
    unfold add_node
    rw [hid]
    show look (g.addNode X (obj_to_attrs obj)).nodes X = _
    rw [obj_to_attrs_eq, look_nodes_addNode_self]

/-- Concrete custom-typed object for the C4 witness. -/
def c4obj : Obj := [("type", .str "x-custom-widget"), ("id", .str "x-custom-widget--1")]

/-- C4 witness: the classifier theorem applied to a concrete custom-typed
object, whose unknown classification still materializes a node. -/
theorem c4_classifier_witness :
    look (processObj true (Graph.empty true, []) (.dict c4obj)).1.nodes
        (Value.str "x-custom-widget--1")
      = some (dictUpdate (nodeState (Graph.empty true) (Value.str "x-custom-widget--1"))
          c4obj) :=
  (c4_classifier c4obj "x-custom-widget" (by decide)).2.2 (by decide)
    (Graph.empty true) [] true (Value.str "x-custom-widget--1")
    (by decide) (by decide) (by decide)

/-! Claim C6: guard on the bundle's objects field. -/

/-- C6 counterexample: a bundle dict with no objects field at all is
converted with no warning emitted (the code defaults a missing objects
field to an empty list, which passes the list check), while the claim says
an absent objects field is skipped with a warning. -/
theorem c6_absent_objects_counterexample :
    convert_bundle (Graph.empty true) ([] : Obj) true = (Graph.empty true, []) := by
  decide

/-- C6 (amended): when the objects field is present but not a sequence, the
whole bundle is skipped — the graph comes back unchanged with no nodes or
edges added — and a warning is emitted; when the objects field is absent,
the bundle is treated as an empty object list: nothing is inserted and no
warning is emitted. In both cases the call returns normally, so a
multi-bundle caller continues with subsequent bundles from the same
graph. -/
theorem c6_bundle_objects_guard
    (g : Graph) (bundle : Obj) (incl : Bool) :
    (∀ v, look bundle "objects" = some v → (∀ xs, v ≠ Value.list xs) →
      convert_bundle g bundle incl = (g, [LogEvent.warnObjectsNotList]))
    ∧ (look bundle "objects" = none →
      convert_bundle g bundle incl = (g, [])) := by
  constructor
  · intro v hv hnl
    unfold convert_bundle
    rw [hv]
    cases v with
    | list xs => exact absurd rfl (hnl xs)
    | str s => rfl
    | num n => rfl
    | bool b => rfl
    | null => rfl
    | dict d => rfl
  · intro hv
    unfold convert_bundle
    rw [hv]
    rfl

/-- C6 witness: the guard theorem applied to a bundle whose objects field is
a string. -/
theorem c6_bundle_objects_guard_witness :
    convert_bundle (Graph.empty true) [("objects", Value.str "nope")] true
      = (Graph.empty true, [LogEvent.warnObjectsNotList]) :=
  (c6_bundle_objects_guard (Graph.empty true) [("objects", Value.str "nope")] true).1
    (Value.str "nope") (by decide) (fun xs h => Value.noConfusion h)

/-! Claim C9: conversion only grows the graph. -/

/-- C9: converting any bundle into any starting graph deletes nothing: the
node key list and the edge endpoint-pair list afterwards are the previous
lists with new entries appended at the end, so every node and every edge
endpoint pair present before the call is still present after it. -/
theorem c9_monotonic_growth
    (g : Graph) (bundle : Obj) (incl : Bool) :
    (∃ tn, (convert_bundle g bundle incl).1.nodes.map Prod.fst
        = g.nodes.map Prod.fst ++ tn)
    ∧ (∃ te, (convert_bundle g bundle incl).1.edges.map Prod.fst
        = g.edges.map Prod.fst ++ te)
    ∧ (∀ n, n ∈ g.nodes.map Prod.fst →
        n ∈ (convert_bundle g bundle incl).1.nodes.map Prod.fst)
    ∧ (∀ p, p ∈ g.edges.map Prod.fst →
        p ∈ (convert_bundle g bundle incl).1.edges.map Prod.fst) := by
  obtain ⟨⟨tn, hn⟩, ⟨te, he⟩⟩ := grows_convert_bundle g bundle incl
  exact ⟨⟨tn, hn⟩, ⟨te, he⟩,
    fun n h => by rw [hn]; exact List.mem_append_left _ h,
    fun p h => by rw [he]; exact List.mem_append_left _ h⟩

/-! Claim C7: legacy embedded-SCO extraction. -/

theorem type_isSome_after_setKey {d : Obj} {idv : Value}
    (ht : ((look d "type").getD (.str "")).truthy = true) :
    (look (setKey d "id" idv) "type").isSome = true := by
  rw [look_setKey_ne d "id" "type" idv (by decide)]
  cases hl : look d "type" with
  | some w => simp
  | none =>
    rw [hl] at ht
    exact absurd ht (by decide)

theorem extractLoop_mem_of {pid : Value} {entries : List (String × Value)}
    {K : String} {d : Obj}
    (hmem : (K, Value.dict d) ∈ entries)
    (ht : ((look d "type").getD (.str "")).truthy = true) :
    setKey d "id" (.str (pyStr pid ++ "--embedded-" ++ K)) ∈ extractLoop pid entries := by
  induction entries with
  | nil => cases hmem
  | cons kv rest ih =>
    rcases List.mem_cons.1 hmem with he | hm
    · rw [← he]
      simp only [extractLoop]
      rw [if_pos ht, if_pos (type_isSome_after_setKey ht)]
      exact List.mem_cons_self _ _
    · obtain ⟨key, v⟩ := kv
      cases v with
      | dict d' =>
        simp only [extractLoop]
        by_cases ht' : ((look d' "type").getD (Value.str "")).truthy = true
        · rw [if_pos ht']
          by_cases hs : (look (setKey d' "id"
              (Value.str (pyStr pid ++ "--embedded-" ++ key))) "type").isSome = true
          · rw [if_pos hs]
            exact List.mem_cons_of_mem _ (ih hm)
          · rw [if_neg hs]
            exact ih hm
        · rw [if_neg ht']
          exact ih hm
      | str s =>
        simp only [extractLoop]
        exact ih hm
      | num n =>
        simp only [extractLoop]
        exact ih hm
      | bool b =>
        simp only [extractLoop]
        exact ih hm
      | null =>
        simp only [extractLoop]
        exact ih hm
      | list xs =>
        simp only [extractLoop]
        exact ih hm

theorem extractLoop_length (pid : Value) (entries : List (String × Value)) :
    (extractLoop pid entries).length = entries.countP (fun kv =>
      match kv.2 with
      | .dict d => ((look d "type").getD (.str "")).truthy
      | _ => false) := by
  induction entries with
  | nil => rfl
  | cons kv rest ih =>
    obtain ⟨key, v⟩ := kv
    cases v with
    | dict d =>
      simp only [extractLoop]
      by_cases ht : ((look d "type").getD (Value.str "")).truthy = true
      · rw [if_pos ht, if_pos (type_isSome_after_setKey ht)]
        simp only [List.length_cons, ih, List.countP_cons]
        simp [ht]
      · rw [if_neg ht]
        simp only [ih, List.countP_cons]
        simp [Bool.eq_false_iff.2 ht]
    | str s =>
      simp only [extractLoop, ih, List.countP_cons]
      simp
    | num n =>
      simp only [extractLoop, ih, List.countP_cons]
      simp
    | bool b =>
      simp only [extractLoop, ih, List.countP_cons]
      simp
    | null =>
      simp only [extractLoop, ih, List.countP_cons]
      simp
    | list xs =>
      simp only [extractLoop, ih, List.countP_cons]
      simp

/-- C7: legacy embedded-SCO extraction from an observed-data object with a
string id P: every entry (K, V) of the nested objects dict whose value is a
mapping with a truthy type yields, in the output, a shallow copy of V with
its id field set to P ++ "--embedded-" ++ K; the output length equals the
number of dict entries with a truthy type, so entries whose value lacks a
type field are silently dropped; and a nested objects field that is absent
or not a mapping yields an empty result. The extractor is a pure function
of the parent object, so repeated extraction yields identical synthetic
identifiers. -/
theorem c7_extract_embedded
    (obj : Obj) (P : String) (emb : List (String × Value))
    (hobjs : (look obj "objects").getD (.dict []) = .dict emb)
    (hid : look obj "id" = some (.str P)) :
    (∀ K d, (K, Value.dict d) ∈ emb →
      ((look d "type").getD (.str "")).truthy = true →
      setKey d "id" (.str (P ++ "--embedded-" ++ K)) ∈ extract_stix20_embedded_scos obj)
    ∧ (extract_stix20_embedded_scos obj).length
        = emb.countP (fun kv => match kv.2 with
            | .dict d => ((look d "type").getD (.str "")).truthy
            | _ => false)
    ∧ (∀ obj' v, look obj' "objects" = some v → (∀ d, v ≠ Value.dict d) →
        extract_stix20_embedded_scos obj' = [])
    ∧ (∀ obj', look obj' "objects" = none →
        extract_stix20_embedded_scos obj' = []) := by
  have hext : extract_stix20_embedded_scos obj = extractLoop (.str P) emb := by
    unfold extract_stix20_embedded_scos
    rw [hobjs, hid]
    rfl
  refine ⟨?_, ?_, ?_, ?_⟩
  · intro K d hm ht
    rw [hext]
    exact extractLoop_mem_of hm ht
  · rw [hext, extractLoop_length]
  · intro obj' v hv hnd
    unfold extract_stix20_embedded_scos
    rw [hv]
    cases v with
    | dict d => exact absurd rfl (hnd d)
    | str s => rfl
    | num n => rfl
    | bool b => rfl
    | null => rfl
    | list xs => rfl
  · intro obj' hv
    unfold extract_stix20_embedded_scos
    rw [hv]
    rfl

/-- Concrete observed-data object with one embedded observable, for the C7
witness (the spec's own scenario). -/
def c7obs : Obj :=
  [("type", .str "observed-data"), ("id", .str "observed-data--X"),
   ("objects", .dict [("0", .dict [("type", .str "ipv4-addr"),
     ("value", .str "1.2.3.4")])])]

/-- C7 witness: the extraction theorem applied to the concrete observed-data
object: the embedded observable appears with the synthetic id. -/
theorem c7_extract_embedded_witness :
    setKey [("type", Value.str "ipv4-addr"), ("value", Value.str "1.2.3.4")] "id"
        (.str ("observed-data--X" ++ "--embedded-" ++ "0"))
      ∈ extract_stix20_embedded_scos c7obs :=
  (c7_extract_embedded c7obs "observed-data--X"
    [("0", .dict [("type", .str "ipv4-addr"), ("value", .str "1.2.3.4")])]
    (by decide) (by decide)).1 "0"
    [("type", Value.str "ipv4-addr"), ("value", Value.str "1.2.3.4")]
    (by decide) (by decide)

/-! Claim C8: node-key and id-attribute coherence. -/

/-- C8: starting from any coherent graph (the empty graph in particular) and
converting any sequence of bundles whose objects are JSON-style dicts with
pairwise-distinct keys, every node in the resulting graph whose attribute
dict carries an id attribute has that attribute equal to the node's graph
key — for nodes from domain objects, observables, unknown types, sightings
and extracted embedded observables alike. -/
theorem c8_node_id_coherence
    (g : Graph) (bundles : List Obj) (incl : Bool)
    (hg : NodeIdCoherent g)
    (hwf : ∀ b ∈ bundles, ∀ objs,
      (look b "objects").getD (.list []) = .list objs →
      objs.all dictKeysNodup = true) :
    NodeIdCoherent (convertAll g bundles incl) := by
  induction bundles generalizing g with
  | nil => exact hg
  | cons b rest ih =>
    exact ih _ (coherent_convert_bundle (hwf b (List.mem_cons_self _ _)) hg)
      (fun b' hb' => hwf b' (List.mem_cons_of_mem _ hb'))

/-- Mixed bundle for the C8 witness: a sighting, a relationship, an SDO, an
observed-data with an embedded SCO, and an unknown type. -/
def c8bundle : Obj :=
  [("objects", .list
    [.dict [("type", .str "malware"), ("id", .str "malware--m")],
     .dict [("type", .str "observed-data"), ("id", .str "observed-data--o"),
       ("objects", .dict [("0", .dict [("type", .str "ipv4-addr"),
         ("value", .str "9.9.9.9")])])],
     .dict [("type", .str "sighting"), ("id", .str "sighting--s"),
       ("sighting_of_ref", .str "malware--m")],
     .dict [("type", .str "relationship"), ("id", .str "relationship--r"),
       ("source_ref", .str "malware--m"), ("target_ref", .str "observed-data--o")],
     .dict [("type", .str "x-weird"), ("id", .str "x-weird--w")]])]

/-- C8 witness: coherence of the graph built from the mixed bundle. -/
theorem c8_node_id_coherence_witness :
    NodeIdCoherent (convertAll (Graph.empty true) [c8bundle] true) :=
  c8_node_id_coherence (Graph.empty true) [c8bundle] true
    (fun p hp w hw => absurd hp (List.not_mem_nil p))
    (fun b hb objs heq => by
      rw [List.mem_singleton] at hb
      subst hb
      have h2 : Value.list
          [.dict [("type", .str "malware"), ("id", .str "malware--m")],
           .dict [("type", .str "observed-data"), ("id", .str "observed-data--o"),
             ("objects", .dict [("0", .dict [("type", .str "ipv4-addr"),
               ("value", .str "9.9.9.9")])])],
           .dict [("type", .str "sighting"), ("id", .str "sighting--s"),
             ("sighting_of_ref", .str "malware--m")],
           .dict [("type", .str "relationship"), ("id", .str "relationship--r"),
             ("source_ref", .str "malware--m"), ("target_ref", .str "observed-data--o")],
           .dict [("type", .str "x-weird"), ("id", .str "x-weird--w")]]
          = Value.list objs := heq
      injection h2 with h3
      rw [← h3]
      decide)

/-! Claim C10: list-source parsing checks only the first element's type. -/

theorem parseStrLoop_err (decode : String → Option Value) (lst : List PySrc) (i : Nat)
    (hbad : ∃ e ∈ lst, ∀ s', e ≠ PySrc.strE s') :
    ∃ err, parseStrLoop decode i lst = .error err := by
  induction lst generalizing i with
  | nil =>
    obtain ⟨e, he, _⟩ := hbad
    cases he
  | cons e rest ih =>
    cases e with
    | strE s' =>
      have hbad' : ∃ e ∈ rest, ∀ s'', e ≠ PySrc.strE s'' := by
        obtain ⟨e', he', hne⟩ := hbad
        rcases List.mem_cons.1 he' with h | h
        · exact absurd h (hne s')
        · exact ⟨e', h, hne⟩
      simp only [parseStrLoop]
      cases hdec : decode s' with
      | none => exact ⟨.jsonFailed i, rfl⟩
      | some v =>
        cases v with
        | dict dd =>
          obtain ⟨err, herr⟩ := ih (i + 1) hbad'
          rw [herr]
          exact ⟨err, rfl⟩
        | str s2 => exact ⟨.notObject i, rfl⟩
        | num n => exact ⟨.notObject i, rfl⟩
        | bool b => exact ⟨.notObject i, rfl⟩
        | null => exact ⟨.notObject i, rfl⟩
        | list xs => exact ⟨.notObject i, rfl⟩
    | dictE dd => exact ⟨.mixedTypes i, rfl⟩
    | otherE => exact ⟨.mixedTypes i, rfl⟩

/-- C10: parse_list_source on a non-empty list whose first element is a dict
returns the whole list unchanged — a shallow copy with no inspection of the
remaining elements, so a mixed list with non-dict tail elements is accepted
and passed through rather than raising ValueError; by contrast, a str-first
list containing any non-str element always raises ValueError (the
mixed-type check applies only on the str path). -/
theorem c10_dict_first_passthrough
    (decode : String → Option Value) (d : Obj) (rest : List PySrc) :
    parse_list_source decode (.dictE d :: rest) = .ok (.dictE d :: rest)
    ∧ ∀ (s : String) (rest' : List PySrc),
      (∃ e ∈ PySrc.strE s :: rest', ∀ s', e ≠ PySrc.strE s') →
      ∃ err, parse_list_source decode (.strE s :: rest') = .error err := by
  constructor
  · rfl
  · intro s rest' hbad
    obtain ⟨err, herr⟩ := parseStrLoop_err decode (PySrc.strE s :: rest') 0 hbad
    simp only [parse_list_source]
    rw [herr]
    exact ⟨err, rfl⟩

/-- C10 witness: a list whose first element is a dict and whose second is
neither dict nor str passes through unchanged. -/
theorem c10_dict_first_passthrough_witness :
    parse_list_source (fun _ => none) [.dictE [], .otherE]
      = .ok [.dictE [], .otherE] :=
  (c10_dict_first_passthrough (fun _ => none) [] [.otherE]).1

/-! Claim C5: simple-mode collapse and multigraph preservation. -/

/-- At most one edge per ordered endpoint pair (the DiGraph shape). -/
def PairsNodup (g : Graph) : Prop := (g.edges.map Prod.fst).Nodup

theorem pairsNodup_addEdge {g : Graph} (u v : Value) (a : Obj)
    (hm : g.isMulti = false) (h : PairsNodup g) : PairsNodup (g.addEdge u v a) := by
  unfold Graph.addEdge addEdgeAux PairsNodup
  have hm1 : ((g.ensureNode u).ensureNode v).isMulti = false := by
    rw [isMulti_ensureNode, isMulti_ensureNode]
    exact hm
  have he : ((g.ensureNode u).ensureNode v).edges = g.edges := by
    rw [edges_ensureNode, edges_ensureNode]
  rw [if_neg (by simp [hm1])]
  cases hl : look ((g.ensureNode u).ensureNode v).edges (u, v) with
  | some ko =>
    show ((setKey ((g.ensureNode u).ensureNode v).edges (u, v)
        (ko.1, dictUpdate ko.2 a)).map Prod.fst).Nodup
    rw [keys_setKey, if_pos (by rw [hl]; rfl), he]
    exact h
  | none =>
    show ((((g.ensureNode u).ensureNode v).edges
        ++ [((u, v), 0, dictUpdate [] a)]).map Prod.fst).Nodup
    rw [List.map_append, he]
    rw [he] at hl
    have hnot : (u, v) ∉ g.edges.map Prod.fst := (look_eq_none_iff _ _).1 hl
    rw [List.nodup_append]
    exact ⟨h, by simp, fun x hx => by
      simp only [List.map_cons, List.map_nil, List.mem_singleton]
      intro hc
      exact hnot (hc ▸ hx)⟩

theorem pairsNodup_addNode {g : Graph} (n : Value) (a : Obj)
    (h : PairsNodup g) : PairsNodup (g.addNode n a) := by
  unfold PairsNodup
  rw [edges_addNode]
  exact h

theorem pairsNodup_add_node {g : Graph} (obj : Obj)
    (h : PairsNodup g) : PairsNodup (add_node g obj) := by
  unfold add_node
  cases look obj "id" with
  | some i => exact pairsNodup_addNode i _ h
  | none => exact h

theorem isMulti_add_node (g : Graph) (obj : Obj) :
    (add_node g obj).isMulti = g.isMulti := by
  unfold add_node
  cases look obj "id" with
  | some i => exact isMulti_addNode g i _
  | none => rfl

theorem pairsNodup_foldl_add_node {scos : List Obj} {g : Graph}
    (h : PairsNodup g) : PairsNodup (scos.foldl add_node g) := by
  induction scos generalizing g with
  | nil => exact h
  | cons s rest ih => exact ih (pairsNodup_add_node s h)

theorem pairsNodup_foldl_addEdge {g : Graph} (n : Value) (attrs : Obj)
    (refs : List Value) (hm : g.isMulti = false) (h : PairsNodup g) :
    PairsNodup (refs.foldl (fun g r => g.addEdge n r attrs) g) := by
  induction refs generalizing g with
  | nil => exact h
  | cons r rest ih =>
    exact ih (by rw [isMulti_addEdge]; exact hm) (pairsNodup_addEdge n r attrs hm h)

theorem pairsNodup_add_relationship {g : Graph} (obj : Obj)
    (hm : g.isMulti = false) (h : PairsNodup g) :
    PairsNodup (add_relationship g obj).1 := by
  unfold add_relationship
  split
  · exact h
  · exact pairsNodup_addEdge _ _ _ hm h

theorem pairsNodup_addSightingOf {g : Graph} (node_id : Value) (obj : Obj)
    (hm : g.isMulti = false) (h : PairsNodup g) :
    PairsNodup (addSightingOf node_id obj g) := by
  unfold addSightingOf
  split
  · exact pairsNodup_addEdge _ _ _ hm h
  · exact h

theorem pairsNodup_add_sighting {g : Graph} (obj : Obj)
    (hm : g.isMulti = false) (h : PairsNodup g) :
    PairsNodup (add_sighting g obj) := by
  unfold add_sighting
  cases look obj "id" with
  | none => exact h
  | some node_id =>
    apply pairsNodup_foldl_addEdge
    · rw [isMulti_foldl_addEdge, isMulti_addSightingOf, isMulti_addNode]
      exact hm
    · apply pairsNodup_foldl_addEdge
      · rw [isMulti_addSightingOf, isMulti_addNode]
        exact hm
      · apply pairsNodup_addSightingOf
        · rw [isMulti_addNode]
          exact hm
        · exact pairsNodup_addNode _ _ h

theorem pairsNodup_processObj {incl : Bool} {st : Graph × List LogEvent} {objv : Value}
    (hm : st.1.isMulti = false) (h : PairsNodup st.1) :
    PairsNodup (processObj incl st objv).1 := by
  cases objv with
  | dict obj =>
    dsimp only [processObj]
    split
    · exact h
    · split
      · split
        · exact h
        · exact h
      · split
        · exact h
        · split
          · exact pairsNodup_add_relationship obj hm h
          · split
            · exact pairsNodup_add_sighting obj hm h
            · split
              · split
                · split
                  · exact pairsNodup_foldl_add_node (pairsNodup_add_node obj h)
                  · exact pairsNodup_add_node obj h
                · exact pairsNodup_add_node obj h
              · split
                · split
                  · exact pairsNodup_add_node obj h
                  · exact h
                · exact pairsNodup_add_node obj h
  | str s => exact h
  | num n => exact h
  | bool b => exact h
  | null => exact h
  | list xs => exact h

theorem isMulti_add_relationship (g : Graph) (obj : Obj) :
    (add_relationship g obj).1.isMulti = g.isMulti := by
  unfold add_relationship
  split
  · rfl
  · exact isMulti_addEdge g _ _ _

theorem isMulti_add_sighting (g : Graph) (obj : Obj) :
    (add_sighting g obj).isMulti = g.isMulti := by
  unfold add_sighting
  cases look obj "id" with
  | none => rfl
  | some node_id =>
    rw [isMulti_foldl_addEdge, isMulti_foldl_addEdge, isMulti_addSightingOf,
      isMulti_addNode]

theorem isMulti_foldl_add_node (scos : List Obj) (g : Graph) :
    (scos.foldl add_node g).isMulti = g.isMulti := by
  induction scos generalizing g with
  | nil => rfl
  | cons s rest ih => rw [List.foldl_cons, ih, isMulti_add_node]

theorem isMulti_processObj (incl : Bool) (st : Graph × List LogEvent) (objv : Value) :
    (processObj incl st objv).1.isMulti = st.1.isMulti := by
  cases objv with
  | dict obj =>
    dsimp only [processObj]
    split
    · rfl
    · split
      · split
        · rfl
        · rfl
      · split
        · rfl
        · split
          · exact isMulti_add_relationship st.1 obj
          · split
            · exact isMulti_add_sighting st.1 obj
            · split
              · split
                · split
                  · rw [show ((extract_stix20_embedded_scos obj).foldl add_node
                        (add_node st.1 obj), st.2).1
                      = (extract_stix20_embedded_scos obj).foldl add_node
                        (add_node st.1 obj) from rfl]
                    rw [isMulti_foldl_add_node, isMulti_add_node]
                  · exact isMulti_add_node st.1 obj
                · exact isMulti_add_node st.1 obj
              · split
                · split
                  · exact isMulti_add_node st.1 obj
                  · rfl
                · exact isMulti_add_node st.1 obj
  | str s => rfl
  | num n => rfl
  | bool b => rfl
  | null => rfl
  | list xs => rfl

theorem pairsNodup_foldl_processObj {incl : Bool} {objs : List Value}
    {st : Graph × List LogEvent}
    (hm : st.1.isMulti = false) (h : PairsNodup st.1) :
    PairsNodup (objs.foldl (processObj incl) st).1 := by
  induction objs generalizing st with
  | nil => exact h
  | cons o rest ih =>
    exact ih (by rw [isMulti_processObj]; exact hm) (pairsNodup_processObj hm h)

theorem pairsNodup_convert_bundle {g : Graph} {bundle : Obj} {incl : Bool}
    (hm : g.isMulti = false) (h : PairsNodup g) :
    PairsNodup (convert_bundle g bundle incl).1 := by
  unfold convert_bundle
  cases hv : (look bundle "objects").getD (.list []) with
  | list objs => exact pairsNodup_foldl_processObj hm h
  | str s => exact h
  | num n => exact h
  | bool b => exact h
  | null => exact h
  | dict d => exact h

theorem countPair_append (es fs : List (EdgeKey × Nat × Obj)) (p : EdgeKey) :
    countPair (es ++ fs) p = countPair es p + countPair fs p := by
  unfold countPair
  rw [List.filter_append, List.length_append]

theorem look_dictUpdate_nodup {κ β : Type} [DecidableEq κ]
    (d u : List (κ × β)) (k : κ) (hu : (u.map Prod.fst).Nodup) :
    look (dictUpdate d u) k = if (look u k).isSome then look u k else look d k := by
  rw [look_dictUpdate, lookLast_eq_look u k hu]
  cases look u k <;> simp

theorem digraph_two_rels {incl : Bool} {g : Graph} {logs : List LogEvent}
    {r1 r2 : Obj} {s t : String} {X1 X2 : Value}
    (hm : g.isMulti = false)
    (hfresh : look g.edges (Value.str s, Value.str t) = none)
    (hty1 : look r1 "type" = some (.str "relationship"))
    (hid1 : look r1 "id" = some X1) (hidt1 : X1.truthy = true)
    (hs1 : look r1 "source_ref" = some (.str s))
    (ht1 : look r1 "target_ref" = some (.str t))
    (hty2 : look r2 "type" = some (.str "relationship"))
    (hid2 : look r2 "id" = some X2) (hidt2 : X2.truthy = true)
    (hs2 : look r2 "source_ref" = some (.str s))
    (ht2 : look r2 "target_ref" = some (.str t))
    (hs0 : s ≠ "") (ht0 : t ≠ "")
    (hnd1 : (r1.map Prod.fst).Nodup) :
    look (processObj incl (processObj incl (g, logs) (.dict r1)) (.dict r2)).1.edges
        (Value.str s, Value.str t)
      = some (0, dictUpdate
          (popKey (popKey (popKey r1 "source_ref") "target_ref") "type")
          (popKey (popKey (popKey r2 "source_ref") "target_ref") "type")) := by
  have hst1 : processObj incl (g, logs) (Value.dict r1)
      = ((add_relationship g r1).1, logs ++ (add_relationship g r1).2) :=
    processObj_relationship hty1 hid1 hidt1
  have hok1 : add_relationship g r1
      = (g.addEdge (.str s) (.str t)
          (popKey (popKey (popKey r1 "source_ref") "target_ref") "type"), []) :=
    add_relationship_ok hs1 hs0 ht1 ht0
  have hst2 : processObj incl
      ((add_relationship g r1).1, logs ++ (add_relationship g r1).2) (Value.dict r2)
      = ((add_relationship ((add_relationship g r1).1) r2).1,
         (logs ++ (add_relationship g r1).2)
           ++ (add_relationship ((add_relationship g r1).1) r2).2) :=
    processObj_relationship hty2 hid2 hidt2
  rw [hst1, hst2, hok1]
  show look ((add_relationship (g.addEdge (.str s) (.str t)
      (popKey (popKey (popKey r1 "source_ref") "target_ref") "type")) r2).1).edges
      (Value.str s, Value.str t) = _
  have hok2 : add_relationship (g.addEdge (.str s) (.str t)
      (popKey (popKey (popKey r1 "source_ref") "target_ref") "type")) r2
      = ((g.addEdge (.str s) (.str t)
          (popKey (popKey (popKey r1 "source_ref") "target_ref") "type")).addEdge
          (.str s) (.str t)
          (popKey (popKey (popKey r2 "source_ref") "target_ref") "type"), []) :=
    add_relationship_ok hs2 hs0 ht2 ht0
  rw [hok2]
  have hnd1' : ((popKey (popKey (popKey r1 "source_ref") "target_ref") "type").map
      Prod.fst).Nodup := by
    refine List.Nodup.sublist ?_ hnd1
    exact ((keys_popKey_sublist _ "type").trans
      ((keys_popKey_sublist _ "target_ref").trans (keys_popKey_sublist _ "source_ref")))
  have he1 : (g.addEdge (.str s) (.str t)
      (popKey (popKey (popKey r1 "source_ref") "target_ref") "type")).edges
      = g.edges ++ [((Value.str s, Value.str t), 0,
          popKey (popKey (popKey r1 "source_ref") "target_ref") "type")] := by
    rw [edges_addEdge_digraph_new g _ _ _ hm hfresh, dictUpdate_nil _ hnd1']
  have hm1 : (g.addEdge (.str s) (.str t)
      (popKey (popKey (popKey r1 "source_ref") "target_ref") "type")).isMulti = false := by
    rw [isMulti_addEdge]
    exact hm
  have hl1 : look (g.addEdge (.str s) (.str t)
      (popKey (popKey (popKey r1 "source_ref") "target_ref") "type")).edges
      (Value.str s, Value.str t)
      = some (0, popKey (popKey (popKey r1 "source_ref") "target_ref") "type") := by
    rw [he1, look_append, hfresh]
    simp [look]
  show look ((g.addEdge (.str s) (.str t)
      (popKey (popKey (popKey r1 "source_ref") "target_ref") "type")).addEdge
      (.str s) (.str t)
      (popKey (popKey (popKey r2 "source_ref") "target_ref") "type")).edges
      (Value.str s, Value.str t) = _
  rw [edges_addEdge_digraph_upd _ _ _ _
    (0, popKey (popKey (popKey r1 "source_ref") "target_ref") "type") hm1 hl1]
  rw [look_setKey_self]

theorem multi_rels_fold {incl : Bool} {s t : String} (rels : List Obj)
    (g : Graph) (logs : List LogEvent)
    (hm : g.isMulti = true)
    (hall : ∀ r ∈ rels, (look r "type" = some (.str "relationship"))
      ∧ (∃ X, look r "id" = some X ∧ X.truthy = true)
      ∧ look r "source_ref" = some (.str s)
      ∧ look r "target_ref" = some (.str t)
      ∧ (r.map Prod.fst).Nodup)
    (hs0 : s ≠ "") (ht0 : t ≠ "") :
    ((rels.map Value.dict).foldl (processObj incl) (g, logs)).1.edges
      = g.edges ++ (List.range rels.length).zipWith
          (fun i r => ((Value.str s, Value.str t),
            countPair g.edges (Value.str s, Value.str t) + i,
            popKey (popKey (popKey r "source_ref") "target_ref") "type")) rels := by
  induction rels generalizing g logs with
  | nil => simp
  | cons r rest ih =>
    obtain ⟨hty, ⟨X, hid, hidt⟩, hsr, htr, hnd⟩ := hall r (List.mem_cons_self _ _)
    have hnd' : ((popKey (popKey (popKey r "source_ref") "target_ref") "type").map
        Prod.fst).Nodup := by
      refine List.Nodup.sublist ?_ hnd
      exact ((keys_popKey_sublist _ "type").trans
        ((keys_popKey_sublist _ "target_ref").trans (keys_popKey_sublist _ "source_ref")))
    have hstep : processObj incl (g, logs) (Value.dict r)
        = ((add_relationship g r).1, logs ++ (add_relationship g r).2) :=
      processObj_relationship hty hid hidt
    have hok : add_relationship g r
        = (g.addEdge (.str s) (.str t)
            (popKey (popKey (popKey r "source_ref") "target_ref") "type"), []) :=
      add_relationship_ok hsr hs0 htr ht0
    have hge : (g.addEdge (.str s) (.str t)
        (popKey (popKey (popKey r "source_ref") "target_ref") "type")).edges
        = g.edges ++ [((Value.str s, Value.str t),
            countPair g.edges (Value.str s, Value.str t),
            popKey (popKey (popKey r "source_ref") "target_ref") "type")] := by
      rw [edges_addEdge_multi _ _ _ _ hm, dictUpdate_nil _ hnd']
    have hgm : (g.addEdge (.str s) (.str t)
        (popKey (popKey (popKey r "source_ref") "target_ref") "type")).isMulti = true := by
      rw [isMulti_addEdge]
      exact hm
    rw [List.map_cons, List.foldl_cons, hstep, hok]
    show ((rest.map Value.dict).foldl (processObj incl)
        (g.addEdge (.str s) (.str t)
          (popKey (popKey (popKey r "source_ref") "target_ref") "type"),
         logs ++ [])).1.edges = _
    rw [ih _ _ hgm (fun r' hr' => hall r' (List.mem_cons_of_mem _ hr'))]
    rw [hge, countPair_append]
    have hc1 : countPair [((Value.str s, Value.str t),
        countPair g.edges (Value.str s, Value.str t),
        popKey (popKey (popKey r "source_ref") "target_ref") "type")]
        (Value.str s, Value.str t) = 1 := by
      simp [countPair]
    rw [hc1]
    rw [List.length_cons, List.range_succ_eq_map, List.zipWith_cons_cons,
      List.zipWith_map_left]
    rw [List.append_assoc]
    show _ = g.edges ++ ([((Value.str s, Value.str t),
        countPair g.edges (Value.str s, Value.str t) + 0,
        popKey (popKey (popKey r "source_ref") "target_ref") "type")]
      ++ List.zipWith _ (List.range rest.length) rest)
    have hfun : (fun (i : Nat) (r' : Obj) => ((Value.str s, Value.str t),
          countPair g.edges (Value.str s, Value.str t) + 1 + i,
          popKey (popKey (popKey r' "source_ref") "target_ref") "type"))
        = (fun (i : Nat) (r' : Obj) => ((Value.str s, Value.str t),
          countPair g.edges (Value.str s, Value.str t) + Nat.succ i,
          popKey (popKey (popKey r' "source_ref") "target_ref") "type")) := by
      funext i r'
      have harith : countPair g.edges (Value.str s, Value.str t) + 1 + i
          = countPair g.edges (Value.str s, Value.str t) + Nat.succ i := by
        omega
      rw [harith]
    rw [hfun]
    rfl

/-- First relationship for C5: carries a description field the second
relationship lacks. -/
def c5r1 : Obj :=
  [("type", .str "relationship"), ("id", .str "relationship--r1"),
   ("relationship_type", .str "uses"), ("description", .str "only-in-first"),
   ("source_ref", .str "a"), ("target_ref", .str "b")]

/-- Second relationship over the same ordered endpoint pair. -/
def c5r2 : Obj :=
  [("type", .str "relationship"), ("id", .str "relationship--r2"),
   ("relationship_type", .str "attributed-to"),
   ("source_ref", .str "a"), ("target_ref", .str "b")]

/-- C5 counterexample: in digraph mode, after inserting two relationships
over the same ordered pair, the single edge still carries the description
field that only the first relationship had, so its attribute mapping does
not entirely equal the second relationship's attributes — DiGraph add_edge
updates the existing attribute dict instead of replacing it. -/
theorem c5_overwrite_counterexample :
    (look (processObj true (processObj true (Graph.empty false, [])
        (.dict c5r1)) (.dict c5r2)).1.edges (Value.str "a", Value.str "b")).map
      (fun ko => look ko.2 "description")
      = some (some (Value.str "only-in-first"))
    ∧ look c5r2 "description" = none := by
  decide

/-- C5 (amended): simple (digraph) mode keeps at most one edge per ordered
endpoint pair across any conversion; a second relationship between the same
pair leaves the single edge's attributes equal to the dict-update of the
first relationship's edge attributes by the second's, so the second's
fields win field-by-field while a field present only in the first survives
(not a complete overwrite). In multigraph mode, N relationships sharing an
endpoint pair yield N separate edges under consecutive fresh keys, each
retaining exactly its own attributes. -/
theorem c5_graph_modes :
    (∀ (g : Graph) (bundle : Obj) (incl : Bool), g.isMulti = false →
      (g.edges.map Prod.fst).Nodup →
      ((convert_bundle g bundle incl).1.edges.map Prod.fst).Nodup)
    ∧ (∀ (incl : Bool) (g : Graph) (logs : List LogEvent) (r1 r2 : Obj)
        (s t : String) (X1 X2 : Value),
        g.isMulti = false →
        look g.edges (Value.str s, Value.str t) = none →
        look r1 "type" = some (.str "relationship") →
        look r1 "id" = some X1 → X1.truthy = true →
        look r1 "source_ref" = some (.str s) →
        look r1 "target_ref" = some (.str t) →
        look r2 "type" = some (.str "relationship") →
        look r2 "id" = some X2 → X2.truthy = true →
        look r2 "source_ref" = some (.str s) →
        look r2 "target_ref" = some (.str t) →
        s ≠ "" → t ≠ "" →
        (r1.map Prod.fst).Nodup → (r2.map Prod.fst).Nodup →
        ∃ attrs, look (processObj incl (processObj incl (g, logs) (.dict r1))
            (.dict r2)).1.edges (Value.str s, Value.str t) = some (0, attrs)
          ∧ ∀ k, look attrs k
              = if (look (popKey (popKey (popKey r2 "source_ref") "target_ref")
                    "type") k).isSome
                then look (popKey (popKey (popKey r2 "source_ref") "target_ref") "type") k
                else look (popKey (popKey (popKey r1 "source_ref") "target_ref") "type") k)
    ∧ (∀ (incl : Bool) (s t : String) (rels : List Obj) (g : Graph)
        (logs : List LogEvent),
        g.isMulti = true →
        (∀ r ∈ rels, (look r "type" = some (.str "relationship"))
          ∧ (∃ X, look r "id" = some X ∧ X.truthy = true)
          ∧ look r "source_ref" = some (.str s)
          ∧ look r "target_ref" = some (.str t)
          ∧ (r.map Prod.fst).Nodup) →
        s ≠ "" → t ≠ "" →
        ((rels.map Value.dict).foldl (processObj incl) (g, logs)).1.edges
          = g.edges ++ (List.range rels.length).zipWith
              (fun i r => ((Value.str s, Value.str t),
                countPair g.edges (Value.str s, Value.str t) + i,
                popKey (popKey (popKey r "source_ref") "target_ref") "type")) rels) := by
  refine ⟨?_, ?_, ?_⟩
  · intro g bundle incl hm h
    exact pairsNodup_convert_bundle hm h
  · intro incl g logs r1 r2 s t X1 X2 hm hfresh hty1 hid1 hidt1 hs1 ht1
      hty2 hid2 hidt2 hs2 ht2 hs0 ht0 hnd1 hnd2
    have hnd2' : ((popKey (popKey (popKey r2 "source_ref") "target_ref") "type").map
        Prod.fst).Nodup := by
      refine List.Nodup.sublist ?_ hnd2
      exact ((keys_popKey_sublist _ "type").trans
        ((keys_popKey_sublist _ "target_ref").trans (keys_popKey_sublist _ "source_ref")))
    refine ⟨_, digraph_two_rels hm hfresh hty1 hid1 hidt1 hs1 ht1
      hty2 hid2 hidt2 hs2 ht2 hs0 ht0 hnd1, ?_⟩
    intro k
    exact look_dictUpdate_nodup _ _ k hnd2'
  · intro incl s t rels g logs hm hall hs0 ht0
    exact multi_rels_fold rels g logs hm hall hs0 ht0

/-- C5 witness: the multigraph half applied to the two concrete
relationships: two edges with keys 0 and 1, each with its own attributes. -/
theorem c5_graph_modes_witness :
    (([c5r1, c5r2].map Value.dict).foldl (processObj true) (Graph.empty true, [])).1.edges
      = (Graph.empty true).edges ++ (List.range [c5r1, c5r2].length).zipWith
          (fun i r => ((Value.str "a", Value.str "b"),
            countPair (Graph.empty true).edges (Value.str "a", Value.str "b") + i,
            popKey (popKey (popKey r "source_ref") "target_ref") "type")) [c5r1, c5r2] :=
  c5_graph_modes.2.2 true "a" "b" [c5r1, c5r2] (Graph.empty true) [] rfl
    (fun r hr => by
      rcases List.mem_cons.1 hr with h | h
      · subst h
        exact ⟨by decide, ⟨Value.str "relationship--r1", by decide, by decide⟩,
          by decide, by decide, by decide⟩
      · rw [List.mem_singleton] at h
        subst h
        exact ⟨by decide, ⟨Value.str "relationship--r2", by decide, by decide⟩,
          by decide, by decide, by decide⟩)
    (by decide) (by decide)

end Stix2nx
